import Mathlib

/-!
Verification of the landlab structured-grid / D8 flow-routing core.

This file gives a shallow embedding, in Lean 4, of:

* `landlab/utils/structured_grid.py`: node-status constants, the link
  endpoint tables (`node_link_index` / `from_node_links` / `to_node_links`),
  `active_links`, `node_index_with_halo`, `diagonal_array`,
  `diagonal_array_slow`, `has_boundary_neighbor` and
  `has_boundary_neighbor_slow`;
* `landlab/components/flow_director/flow_director_d8.py`: the
  `FlowDirectorD8` component (`__init__`, `updated_boundary_conditions`,
  `run_one_step`, `direct_flow`), together with the collaborators it calls
  that are declared elsewhere in the repository
  (`flow_direction_DN.flow_directions`, `grid._d8_active_links`,
  `grid._calculate_gradients_at_d8_active_links`), which are modelled from
  the specification where so noted.

numpy integer arrays are embedded as `List ℕ` / `List ℤ`; elevation arrays
are embedded as functions `ℕ → α` over a linear ordered field `α`
(instantiated at `ℚ` for executable scenarios and at `ℝ` where the
diagonal link length `√2` is needed).
-/

/-! ## Node status codes (`landlab/utils/structured_grid.py`, lines 8-12).
`INACTIVE_BOUNDARY` is the same code as `CLOSED_BOUNDARY` in
`landlab.grid.base`. -/

def INTERIOR_NODE : ℕ := 0

def FIXED_VALUE_BOUNDARY : ℕ := 1

def FIXED_GRADIENT_BOUNDARY : ℕ := 2

def TRACKS_CELL_BOUNDARY : ℕ := 3

def INACTIVE_BOUNDARY : ℕ := 4

/-! ## Link endpoint tables (`structured_grid.node_link_index`).

`node_ids` is the `rows × cols` row-major table with `node_ids[r][c]
= r*cols + c`.  A rectangular sub-block of it, flattened row-major, is
`gridBlock`; the numpy slices `node_ids[a:b, c:d].flat` used by
`to_node_links` / `from_node_links` are instances of it. -/

def gridBlock (rStart rLen cStart cLen cols : ℕ) : List ℕ :=
  (List.range rLen).flatMap fun i =>
    (List.range cLen).map fun j => (rStart + i) * cols + (cStart + j)

/-- `to_node_links(node_ids)` : vertical link heads `node_ids[1:, :]`
followed by horizontal link heads `node_ids[:, 1:]`. -/
def to_node_links (rows cols : ℕ) : List ℕ :=
  gridBlock 1 (rows - 1) 0 cols cols ++ gridBlock 0 rows 1 (cols - 1) cols

/-- `from_node_links(node_ids)` : vertical link tails `node_ids[:-1, :]`
followed by horizontal link tails `node_ids[:, :-1]`. -/
def from_node_links (rows cols : ℕ) : List ℕ :=
  gridBlock 0 (rows - 1) 0 cols cols ++ gridBlock 0 rows 0 (cols - 1) cols

/-- `structured_grid.link_count(shape) = shape[1]*(shape[0]-1) +
shape[0]*(shape[1]-1)`. -/
def link_count (rows cols : ℕ) : ℕ :=
  cols * (rows - 1) + rows * (cols - 1)

/-! ## `structured_grid.active_links` -/

/-- The per-link boolean computed by `active_links`:
`((from_node_status == INTERIOR_NODE) & ~(to_node_status ==
INACTIVE_BOUNDARY)) | ((to_node_status == INTERIOR_NODE) &
~(from_node_status == INACTIVE_BOUNDARY))`. -/
def activeLinkFlag (fromStatus toStatus : ℕ) : Bool :=
  (fromStatus == INTERIOR_NODE && !(toStatus == INACTIVE_BOUNDARY)) ||
  (toStatus == INTERIOR_NODE && !(fromStatus == INACTIVE_BOUNDARY))

/-- `np.where` on a boolean vector: the indices holding `true`,
ascending.  `npWhereFrom k` is the helper that reports positions offset
by `k`. -/
def npWhereFrom (k : ℕ) : List Bool → List ℕ
  | [] => []
  | b :: rest => if b then k :: npWhereFrom (k + 1) rest
                 else npWhereFrom (k + 1) rest

def npWhere (flags : List Bool) : List ℕ := npWhereFrom 0 flags

/-- `structured_grid.active_links(shape, node_status_array)` with the
link tables taken from `node_link_index(shape)` (the default). -/
def active_links (rows cols : ℕ) (node_status : ℕ → ℕ) : List ℕ :=
  npWhere (List.zipWith activeLinkFlag
    ((from_node_links rows cols).map node_status)
    ((to_node_links rows cols).map node_status))

/-! ## `structured_grid.has_boundary_neighbor` and its slow reference -/

/-- `has_boundary_neighbor(neighbors, diagonals, out_of_bounds)`.

The Python body reads
`return (out_of_bounds in neighbors | out_of_bounds in diagonals)`.
By Python operator precedence `|` binds tighter than `in`, and two `in`
operators chain, so this evaluates as
`(out_of_bounds in (neighbors | out_of_bounds)) and
((neighbors | out_of_bounds) in diagonals)`,
where `neighbors | out_of_bounds` is numpy's elementwise bitwise or,
scalar membership in an array is `(arr == scalar).any()`, and
membership of a same-shape array in an array broadcasts to
`(diagonals == arr).any()` (elementwise equality, then any). -/
def has_boundary_neighbor (neighbors diagonals : List ℤ)
    (out_of_bounds : ℤ) : Bool :=
  let arr := neighbors.map fun x => Int.lor x out_of_bounds
  (arr.contains out_of_bounds) &&
    ((List.zipWith (fun d a => d == a) diagonals arr).any id)

/-- `has_boundary_neighbor_slow(neighbors, diagonals, out_of_bounds)`:
advance `i` while `i < 4` and `neighbors[i] != out_of_bounds`; if the
walk stopped before index 4 a sentinel was found, return `True`;
otherwise do the same walk over `diagonals`.  Both arrays have four
entries (rows of `neighbor_array` / `diagonal_array`), so the walk
length is the length of the longest sentinel-free head of the list. -/
def has_boundary_neighbor_slow (neighbors diagonals : List ℤ)
    (out_of_bounds : ℤ) : Bool :=
  let i := (neighbors.takeWhile fun x => x != out_of_bounds).length
  if i < 4 then true
  else
    let r := (diagonals.takeWhile fun x => x != out_of_bounds).length
    if r < 4 then true else false

/-! ## `structured_grid.node_index_with_halo` and the diagonal tables -/

/-- Entry `(hr, hc)` of `node_index_with_halo(shape, halo_indices)`.  The
source allocates a `(rows+2) × (cols+2)` table, writes
`0 .. rows*cols - 1` row-major into the interior positions
(`interior_nodes` of the halo shape, i.e. `1 ≤ hr ≤ rows`,
`1 ≤ hc ≤ cols`, numbered consecutively so position `(hr, hc)` gets
`(hr-1)*cols + (hc-1)`) and `halo_indices` into the boundary ring. -/
def haloFun (rows cols : ℕ) (halo : ℤ) (hr hc : ℕ) : ℤ :=
  if 1 ≤ hr ∧ hr ≤ rows ∧ 1 ≤ hc ∧ hc ≤ cols then
    ((hr - 1) * cols + (hc - 1) : ℕ)
  else halo

def node_index_with_halo (rows cols : ℕ) (halo : ℤ) : List (List ℤ) :=
  (List.range (rows + 2)).map fun hr =>
    (List.range (cols + 2)).map fun hc => haloFun rows cols halo hr hc

/-- `structured_grid.diagonal_array(shape, out_of_bounds)`: row `n`
(for node `n` at grid position `(r, c) = (n / cols, n % cols)`) is the
transpose-row of the four stacked halo slices
`ids[:rows, :cols]`, `ids[:rows, 2:]`, `ids[2:, 2:]`, `ids[2:, :cols]`,
each flattened, at flat position `n`; slice `k` of a `rows × cols`
flattening reads halo entry `(r + dr_k, c + dc_k)`. -/
def diagonal_array (rows cols : ℕ) (out_of_bounds : ℤ) : List (List ℤ) :=
  (List.range rows).flatMap fun r =>
    (List.range cols).map fun c =>
      [ ((node_index_with_halo rows cols out_of_bounds).getD r []).getD c out_of_bounds,
        ((node_index_with_halo rows cols out_of_bounds).getD r []).getD (c + 2) out_of_bounds,
        ((node_index_with_halo rows cols out_of_bounds).getD (r + 2) []).getD (c + 2) out_of_bounds,
        ((node_index_with_halo rows cols out_of_bounds).getD (r + 2) []).getD c out_of_bounds ]

/-- The row that `diagonal_array_slow` writes for interior cell
`cell_id`: positions `0..3` hold `cell_id + ncols + 1` (top right),
`cell_id + ncols - 1` (top left), `cell_id - ncols - 1` (bottom left),
`cell_id - ncols + 1` (bottom right). -/
def slowRow (cols : ℕ) (cell_id : ℤ) : List ℤ :=
  [cell_id + cols + 1, cell_id + cols - 1, cell_id - cols - 1, cell_id - cols + 1]

/-- `structured_grid.diagonal_array_slow(shape, out_of_bounds)`: start
from `-np.ones([ncells, 4])` and, for `r in xrange(1, nrows-1)`,
`c in xrange(1, ncols-1)`, overwrite row `r*ncols + c`.  (The
`out_of_bounds` argument is unused by the source body, which always
fills `-1`.) -/
def diagonal_array_slow (rows cols : ℕ) (_out_of_bounds : ℤ) : List (List ℤ) :=
  ((List.range' 1 (rows - 2)) ×ˢ (List.range' 1 (cols - 2))).foldl
    (fun m rc => m.set (rc.1 * cols + rc.2) (slowRow cols (rc.1 * cols + rc.2)))
    (List.replicate (rows * cols) [(-1 : ℤ), -1, -1, -1])

/-! ## The D8 grid and `FlowDirectorD8`
(`landlab/components/flow_director/flow_director_d8.py`)

The component's collaborators — the grid accessors `_d8_active_links`
and `_calculate_gradients_at_d8_active_links` and the router
`flow_direction_DN.flow_directions` — are declared outside the
repository slice under verification and are modelled from the
specification below, constrained by the doctests of
`flow_director_d8.py`. -/

/-- The orthogonal (D4) links as `(id, tail, head)` triples: entry `i`
of `node_link_index(shape)`, so vertical links (tail `node_ids[:-1, :]`,
head `node_ids[1:, :]`) come first and horizontal links (tail
`node_ids[:, :-1]`, head `node_ids[:, 1:]`) second. -/
def d4Links (rows cols : ℕ) : List (ℕ × ℕ × ℕ) :=
  (List.range (link_count rows cols)).map fun i =>
    (i, (from_node_links rows cols).getD i 0, (to_node_links rows cols).getD i 0)

/-- Modelled from the spec: the diagonal-link endpoint pairs of the
raster grid ("per-link tail/head node IDs partitioned into orthogonal
and diagonal"; the grid method building them is declared outside this
repository slice).  Nodes are enumerated row-major; each node
contributes a link to its upper-right and then its upper-left diagonal
neighbour, where those exist, with the lower node as tail.  This fixed
enumeration realises the spec's "fixed, deterministic link-enumeration
order". -/
def diagLinkPairs (rows cols : ℕ) : List (ℕ × ℕ) :=
  (List.range (rows - 1)).flatMap fun r =>
    (List.range cols).flatMap fun c =>
      (if c + 1 < cols then [(r * cols + c, (r + 1) * cols + (c + 1))] else []) ++
      (if 1 ≤ c then [(r * cols + c, (r + 1) * cols + (c - 1))] else [])

/-- All D8 links as `(id, tail, head)`: the orthogonal links, then the
diagonal links numbered from `link_count` upward. -/
def allD8Links (rows cols : ℕ) : List (ℕ × ℕ × ℕ) :=
  d4Links rows cols ++
    ((diagLinkPairs rows cols).enumFrom (link_count rows cols)).map
      fun p => (p.1, p.2.1, p.2.2)

/-- Modelled from the spec: `grid._d8_active_links()` (declared outside
this repository slice) returns the id / tail / head tables of the
active links among the orthogonal and diagonal links; activity is the
same pure function of the two endpoint statuses as in
`structured_grid.active_links` ("a link is active iff at least one
endpoint is INTERIOR and neither endpoint is CLOSED"). -/
def d8_active_links (rows cols : ℕ) (status : ℕ → ℕ) : List (ℕ × ℕ × ℕ) :=
  (allD8Links rows cols).filter fun l =>
    activeLinkFlag (status l.2.1) (status l.2.2)

/-- One active link as the router sees it: link id, tail node, head
node, and link slope (positive when the tail is higher, i.e. positive
downhill from tail to head). -/
structure LinkData (α : Type) where
  id : ℕ
  tail : ℕ
  head : ℕ
  slope : α

/-- The mutable router arrays: `receiver`, `steepest_slope`,
`receiver_link` (sentinel `-1` for "no link"). -/
structure RouteState (α : Type) where
  receiver : List ℕ
  steepest_slope : List α
  receiver_link : List ℤ

/-- One iteration of the router's loop over the active links (modelled
from the spec, §4.3 steps 1–3): the strictly higher endpoint of the
link drains across it when the link's downhill gradient magnitude
strictly beats that endpoint's current steepest slope; on a tie the
earlier link is kept. -/
def linkStep {α : Type} [LinearOrderedField α] (elev : ℕ → α)
    (st : RouteState α) (lk : LinkData α) : RouteState α :=
  if elev lk.tail > elev lk.head ∧ lk.slope > st.steepest_slope.getD lk.tail 0 then
    { receiver := st.receiver.set lk.tail lk.head,
      steepest_slope := st.steepest_slope.set lk.tail lk.slope,
      receiver_link := st.receiver_link.set lk.tail lk.id }
  else if elev lk.head > elev lk.tail ∧ -lk.slope > st.steepest_slope.getD lk.head 0 then
    { receiver := st.receiver.set lk.head lk.tail,
      steepest_slope := st.steepest_slope.set lk.head (-lk.slope),
      receiver_link := st.receiver_link.set lk.head lk.id }
  else st

/-- Modelled from the spec: `flow_direction_DN.flow_directions(elev,
active_links, fromnode, tonode, link_slope, baselevel_nodes)` (the
module is declared outside this repository slice).  Per spec §4.3:
receivers start as the identity map, slopes as zero, receiver links at
the sentinel `-1`; every active link lets its strictly higher endpoint
drain across it when it improves that endpoint's steepest slope;
base-level nodes are then reset to self-receivers with slope 0 and
sentinel link ("a base-level node itself is never forced to drain
further ... it simply receives from itself"); finally the sink list
collects the nodes that are their own receivers.  Per the
`FlowDirectorD8` doctest (`flow__sink_flag` is 1 at the fixed-value
nodes 0, 1, 2 of the 3×3 example), base-level self-receivers are
included in the sink list. -/
def flow_directions {α : Type} [LinearOrderedField α] (elev : ℕ → α)
    (num_nodes : ℕ) (links : List (LinkData α)) (baselevel_nodes : List ℕ) :
    RouteState α × List ℕ :=
  let st0 : RouteState α :=
    ⟨List.range num_nodes, List.replicate num_nodes 0,
      List.replicate num_nodes (-1)⟩
  let st1 := links.foldl (linkStep elev) st0
  let st2 := baselevel_nodes.foldl (fun st b =>
    ⟨st.receiver.set b b, st.steepest_slope.set b 0,
      st.receiver_link.set b (-1)⟩) st1
  (st2, (List.range num_nodes).filter fun i => st2.receiver.getD i i == i)

/-- The grid-capability tag: `isinstance(grid, VoronoiDelaunayGrid)`
distinguishes irregular grids from rectangular rasters. -/
inductive GridKind where
  | Raster : GridKind
  | VoronoiDelaunay : GridKind
deriving DecidableEq

/-- The grid state that `FlowDirectorD8` reads: its type, shape, the
per-node status codes, the elevation surface, the per-link lengths
(used by the gradient collaborator; `1` for orthogonal links and `√2`
for diagonal links on a unit-spacing raster), and the
boundary-condition version counter `bc_set_code`. -/
structure D8Grid (α : Type) where
  kind : GridKind
  rows : ℕ
  cols : ℕ
  status_at_node : ℕ → ℕ
  elev : ℕ → α
  link_length : ℕ → α
  bc_set_code : ℕ

/-- The component state that persists between routing calls: the last
recorded `bc_set_code` and the cached active-link tables. -/
structure DirectorState where
  bc_set_code : ℕ
  active_links_cache : List (ℕ × ℕ × ℕ)

/-- `FlowDirectorD8.updated_boundary_conditions`: re-derive the cached
tables `(dal, d8t, d8h)` from `grid._d8_active_links()`. -/
def updated_boundary_conditions {α : Type} (g : D8Grid α) :
    List (ℕ × ℕ × ℕ) :=
  d8_active_links g.rows g.cols g.status_at_node

/-- Modelled from the spec:
`grid._calculate_gradients_at_d8_active_links(elevs)` (declared outside
this repository slice) returns, per active link, "the elevation
difference per unit edge length across each edge, signed by
direction": `(elev[head] - elev[tail]) / length(link)`. -/
def d8_gradients {α : Type} [LinearOrderedField α] (g : D8Grid α)
    (links : List (ℕ × ℕ × ℕ)) : List α :=
  links.map fun l => (g.elev l.2.2 - g.elev l.2.1) / g.link_length l.1

/-- The four per-node output arrays written back onto the grid. -/
structure D8Output (α : Type) where
  receiver : List ℕ
  steepest_slope : List α
  receiver_link : List ℤ
  sink_flag : List Bool

/-- `FlowDirectorD8.direct_flow`: step 0 re-runs
`updated_boundary_conditions` and records `grid.bc_set_code` when the
stored code differs from the grid's; step 1 sets `link_slope` to the
negated d8 gradients; step 2 collects the base-level nodes (status
`FIXED_VALUE_BOUNDARY` or `FIXED_GRADIENT_BOUNDARY`); then
`flow_directions` runs and the four output arrays are produced
(`flow__sink_flag` is zeros with `True` written at the sink list). -/
def direct_flow {α : Type} [LinearOrderedField α] (g : D8Grid α)
    (st : DirectorState) : DirectorState × D8Output α :=
  let st' := if st.bc_set_code ≠ g.bc_set_code then
      ⟨g.bc_set_code, updated_boundary_conditions g⟩ else st
  let link_slope := (d8_gradients g st'.active_links_cache).map Neg.neg
  let links := List.zipWith
    (fun (l : ℕ × ℕ × ℕ) (s : α) => LinkData.mk l.1 l.2.1 l.2.2 s)
    st'.active_links_cache link_slope
  let baselevel_nodes := (List.range (g.rows * g.cols)).filter fun n =>
    g.status_at_node n == FIXED_VALUE_BOUNDARY ||
    g.status_at_node n == FIXED_GRADIENT_BOUNDARY
  let rs := flow_directions g.elev (g.rows * g.cols) links baselevel_nodes
  (st', ⟨rs.1.receiver, rs.1.steepest_slope, rs.1.receiver_link,
    rs.2.foldl (fun fl i => fl.set i true)
      (List.replicate (g.rows * g.cols) false)⟩)

/-- `FlowDirectorD8.run_one_step` invokes `direct_flow` (discarding its
return value). -/
def run_one_step {α : Type} [LinearOrderedField α] (g : D8Grid α)
    (st : DirectorState) : DirectorState × D8Output α :=
  direct_flow g st

/-- `FlowDirectorD8.__init__(grid, surface)`: after the superclass
set-up records the grid's current `bc_set_code`, the constructor raises
`NotImplementedError` when `isinstance(grid, VoronoiDelaunayGrid)`, and
otherwise calls `updated_boundary_conditions` and returns the
constructed component state. -/
def FlowDirectorD8_init {α : Type} (g : D8Grid α) :
    Except String DirectorState :=
  if g.kind = GridKind.VoronoiDelaunay then
    Except.error
      "FlowDirectorD8 not implemented for irregular grids, use FlowDirectorSteepest"
  else
    Except.ok ⟨g.bc_set_code, updated_boundary_conditions g⟩

/-- The per-node invariant of the router state: the steepest slope is
nonnegative, and it is zero exactly when the node is its own receiver. -/
def nodeInv {α : Type} [LinearOrderedField α] (st : RouteState α) (n : ℕ) : Prop :=
  0 ≤ st.steepest_slope.getD n 0 ∧
    (st.steepest_slope.getD n 0 = 0 ↔ st.receiver.getD n n = n)

/-- Node statuses of the 3×3 doctest grid of `flow_director_d8.py`:
`set_closed_boundaries_at_grid_edges(True, True, True, False)` leaves
one open edge whose nodes 0, 1, 2 stay `FIXED_VALUE_BOUNDARY`, closes
the rest of the perimeter, and keeps the centre node 4 interior. -/
def status3 : ℕ → ℕ := fun n =>
  if n ≤ 2 then FIXED_VALUE_BOUNDARY
  else if n = 4 then INTERIOR_NODE
  else INACTIVE_BOUNDARY

/-- The 3×3 doctest grid with a flat (all-zero) surface and unit link
lengths, over `ℚ`. -/
def gflat : D8Grid ℚ :=
  ⟨GridKind.Raster, 3, 3, status3, fun _ => 0, fun _ => 1, 1⟩

/-- The active links out of node `n`: those active links on which `n`
is the strictly higher-elevation endpoint (spec §4.3 step 1). -/
def outgoingLinks {α : Type} [LinearOrderedField α] (g : D8Grid α) (n : ℕ) :
    List (ℕ × ℕ × ℕ) :=
  (d8_active_links g.rows g.cols g.status_at_node).filter fun l =>
    (l.2.1 == n && decide (g.elev l.2.2 < g.elev l.2.1)) ||
    (l.2.2 == n && decide (g.elev l.2.1 < g.elev l.2.2))

/-- The endpoint of link `l` other than `n`. -/
def linkOther (n : ℕ) (l : ℕ × ℕ × ℕ) : ℕ :=
  if l.2.1 = n then l.2.2 else l.2.1

/-- The outgoing gradient magnitude from `n` across link `l`
(spec §4.3 step 2): `(elev[n] - elev[m]) / length(l)`. -/
def gradFrom {α : Type} [LinearOrderedField α] (g : D8Grid α) (n : ℕ)
    (l : ℕ × ℕ × ℕ) : α :=
  (g.elev n - g.elev (linkOther n l)) / g.link_length l.1

/-- Router-level candidacy: link `lk` lets node `n` drain (its strictly
higher endpoint is `n`). -/
def isCand {α : Type} [LinearOrderedField α] (elev : ℕ → α) (n : ℕ)
    (lk : LinkData α) : Prop :=
  (lk.tail = n ∧ elev lk.head < elev n) ∨ (lk.head = n ∧ elev lk.tail < elev n)

/-- The downhill gradient magnitude that the router compares for a
candidate link of node `n`. -/
def candGrad {α : Type} [LinearOrderedField α] (n : ℕ) (lk : LinkData α) : α :=
  if lk.tail = n then lk.slope else -lk.slope

/-- The neighbour node `n` drains to across candidate link `lk`. -/
def candOther {α : Type} (n : ℕ) (lk : LinkData α) : ℕ :=
  if lk.tail = n then lk.head else lk.tail

/-- The `LinkData` record that `direct_flow` hands the router for
active link `l`: the slope is the negated d8 gradient. -/
def lkOf {α : Type} [LinearOrderedField α] (g : D8Grid α)
    (l : ℕ × ℕ × ℕ) : LinkData α :=
  ⟨l.1, l.2.1, l.2.2, -((g.elev l.2.2 - g.elev l.2.1) / g.link_length l.1)⟩

/-- The elevation surface `x + y` of the 3×3 doctest, row-major. -/
def elev3List : List ℚ := [0, 1, 2, 1, 2, 3, 2, 3, 4]

/-- The 3×3 doctest grid over `ℚ` with unit link lengths. -/
def grid3unit : D8Grid ℚ :=
  ⟨GridKind.Raster, 3, 3, status3, fun n => elev3List.getD n 0, fun _ => 1, 1⟩

/-- A 3×3 grid whose fixed-value node 1 towers over the interior
node 4: node 1 has an active outgoing link down to node 4. -/
def grid3spike : D8Grid ℚ :=
  ⟨GridKind.Raster, 3, 3, status3,
    fun n => ([0, 5, 0, 0, 1, 0, 0, 0, 0] : List ℚ).getD n 0, fun _ => 1, 1⟩

/-- The doctest elevation surface `node_x + node_y` of the 3×3 example,
`[0, 1, 2, 1, 2, 3, 2, 3, 4]` row-major, over `ℝ`. -/
def elev3R : ℕ → ℝ := fun n =>
  if n = 0 then 0 else if n = 1 then 1 else if n = 2 then 2
  else if n = 3 then 1 else if n = 4 then 2 else if n = 5 then 3
  else if n = 6 then 2 else if n = 7 then 3 else 4

/-! ## Theorems -/

theorem length_gridBlock (rStart rLen cStart cLen cols : ℕ) :
    (gridBlock rStart rLen cStart cLen cols).length = rLen * cLen := by
  simp [gridBlock, Function.comp_def, Nat.mul_comm]

theorem length_to_node_links (rows cols : ℕ) :
    (to_node_links rows cols).length = link_count rows cols := by
  simp [to_node_links, link_count, length_gridBlock, Nat.mul_comm]

theorem length_from_node_links (rows cols : ℕ) :
    (from_node_links rows cols).length = link_count rows cols := by
  simp [from_node_links, link_count, length_gridBlock, Nat.mul_comm]

theorem mem_npWhereFrom (l : List Bool) (k i : ℕ) :
    i ∈ npWhereFrom k l ↔ ∃ j, j < l.length ∧ l.getD j false = true ∧ i = k + j := by
  induction l generalizing k with
  | nil => simp [npWhereFrom]
  | cons b rest ih =>
    simp only [npWhereFrom]
    constructor
    · intro h
      by_cases hb : b
      · rw [if_pos hb] at h
        rcases List.mem_cons.mp h with h | h
        · exact ⟨0, by simp [h, hb]⟩
        · rcases (ih (k + 1)).mp h with ⟨j, hj, hv, hik⟩
          exact ⟨j + 1, by simpa using hj, by simpa using hv, by omega⟩
      · rw [if_neg hb] at h
        rcases (ih (k + 1)).mp h with ⟨j, hj, hv, hik⟩
        exact ⟨j + 1, by simpa using hj, by simpa using hv, by omega⟩
    · rintro ⟨j, hj, hv, rfl⟩
      cases j with
      | zero =>
        simp only [List.getD_cons_zero] at hv
        simp [hv]
      | succ j =>
        have hmem : k + (j + 1) ∈ npWhereFrom (k + 1) rest :=
          (ih (k + 1)).mpr ⟨j, by simpa using hj, by simpa using hv, by omega⟩
        by_cases hb : b
        · rw [if_pos hb]; exact List.mem_cons_of_mem _ hmem
        · rw [if_neg hb]; exact hmem

theorem mem_npWhere (l : List Bool) (i : ℕ) :
    i ∈ npWhere l ↔ i < l.length ∧ l.getD i false = true := by
  rw [npWhere, mem_npWhereFrom]
  constructor
  · rintro ⟨j, hj, hv, hik⟩
    have hji : j = i := by omega
    subst hji
    exact ⟨hj, hv⟩
  · rintro ⟨hi, hv⟩; exact ⟨i, hi, hv, by omega⟩

theorem getD_active_flags (rows cols : ℕ) (node_status : ℕ → ℕ) (i : ℕ)
    (h : i < link_count rows cols) :
    (List.zipWith activeLinkFlag
      ((from_node_links rows cols).map node_status)
      ((to_node_links rows cols).map node_status)).getD i false =
    activeLinkFlag (node_status ((from_node_links rows cols).getD i 0))
      (node_status ((to_node_links rows cols).getD i 0)) := by
  have h1 : i < (from_node_links rows cols).length := by
    rw [length_from_node_links]; exact h
  have h2 : i < (to_node_links rows cols).length := by
    rw [length_to_node_links]; exact h
  have hz : i < (List.zipWith activeLinkFlag
      ((from_node_links rows cols).map node_status)
      ((to_node_links rows cols).map node_status)).length := by
    rw [List.length_zipWith]
    simp only [List.length_map]
    omega
  rw [List.getD_eq_getElem _ _ hz, List.getElem_zipWith,
    List.getElem_map, List.getElem_map,
    List.getD_eq_getElem _ _ h1, List.getD_eq_getElem _ _ h2]

theorem length_active_flags (rows cols : ℕ) (node_status : ℕ → ℕ) :
    (List.zipWith activeLinkFlag
      ((from_node_links rows cols).map node_status)
      ((to_node_links rows cols).map node_status)).length =
      link_count rows cols := by
  rw [List.length_zipWith]
  simp only [List.length_map, length_from_node_links, length_to_node_links,
    Nat.min_self]

/-- Sanity check against the doctest `active_links((3, 4)) ==
[1, 2, 5, 6, 11, 12, 13]` (all boundary nodes `FIXED_VALUE_BOUNDARY`,
interior nodes 5 and 6 `INTERIOR_NODE`). -/
theorem active_links_default_3_4 :
    active_links 3 4 (fun n => if n = 5 ∨ n = 6 then 0 else 1) =
      [1, 2, 5, 6, 11, 12, 13] := by decide

/-- Claim C2: a link `i` of the structured grid is in the computed
active-link set iff `(status[tail] == INTERIOR and status[head] !=
CLOSED/INACTIVE) or (status[head] == INTERIOR and status[tail] !=
CLOSED/INACTIVE)`; in particular a link both of whose endpoints are
non-interior (which covers two closed endpoints) is never active. -/
theorem active_links_active_iff (rows cols : ℕ) (node_status : ℕ → ℕ)
    (i : ℕ) (h : i < link_count rows cols) :
    (i ∈ active_links rows cols node_status ↔
      ((node_status ((from_node_links rows cols).getD i 0) = INTERIOR_NODE ∧
        node_status ((to_node_links rows cols).getD i 0) ≠ INACTIVE_BOUNDARY) ∨
       (node_status ((to_node_links rows cols).getD i 0) = INTERIOR_NODE ∧
        node_status ((from_node_links rows cols).getD i 0) ≠ INACTIVE_BOUNDARY))) ∧
    ((node_status ((from_node_links rows cols).getD i 0) ≠ INTERIOR_NODE ∧
      node_status ((to_node_links rows cols).getD i 0) ≠ INTERIOR_NODE) →
      i ∉ active_links rows cols node_status) := by
  have hmem : i ∈ active_links rows cols node_status ↔
      ((node_status ((from_node_links rows cols).getD i 0) = INTERIOR_NODE ∧
        node_status ((to_node_links rows cols).getD i 0) ≠ INACTIVE_BOUNDARY) ∨
       (node_status ((to_node_links rows cols).getD i 0) = INTERIOR_NODE ∧
        node_status ((from_node_links rows cols).getD i 0) ≠ INACTIVE_BOUNDARY)) := by
    rw [active_links, mem_npWhere, length_active_flags,
      getD_active_flags rows cols node_status i h, activeLinkFlag]
    constructor
    · rintro ⟨-, hv⟩
      simpa [INTERIOR_NODE, INACTIVE_BOUNDARY] using hv
    · intro hv
      refine ⟨h, ?_⟩
      simpa [INTERIOR_NODE, INACTIVE_BOUNDARY] using hv
  refine ⟨hmem, fun hni hcontra => ?_⟩
  rcases hmem.mp hcontra with ⟨hf, -⟩ | ⟨ht, -⟩
  · exact hni.1 hf
  · exact hni.2 ht

/-- Witness for C2 at a concrete input: link 1 of the default 3×4 grid
(tail node 1, head node 5). -/
theorem active_links_active_iff_witness :
    (1 < link_count 3 4) ∧
    ((1 ∈ active_links 3 4 (fun n => if n = 5 ∨ n = 6 then 0 else 1) ↔
      (((fun n => if n = 5 ∨ n = 6 then 0 else 1) ((from_node_links 3 4).getD 1 0) = INTERIOR_NODE ∧
        (fun n => if n = 5 ∨ n = 6 then 0 else 1) ((to_node_links 3 4).getD 1 0) ≠ INACTIVE_BOUNDARY) ∨
       ((fun n => if n = 5 ∨ n = 6 then 0 else 1) ((to_node_links 3 4).getD 1 0) = INTERIOR_NODE ∧
        (fun n => if n = 5 ∨ n = 6 then 0 else 1) ((from_node_links 3 4).getD 1 0) ≠ INACTIVE_BOUNDARY))) ∧
     (((fun n => if n = 5 ∨ n = 6 then 0 else 1) ((from_node_links 3 4).getD 1 0) ≠ INTERIOR_NODE ∧
       (fun n => if n = 5 ∨ n = 6 then 0 else 1) ((to_node_links 3 4).getD 1 0) ≠ INTERIOR_NODE) →
      1 ∉ active_links 3 4 (fun n => if n = 5 ∨ n = 6 then 0 else 1))) :=
  ⟨by decide,
   active_links_active_iff 3 4 (fun n => if n = 5 ∨ n = 6 then 0 else 1) 1 (by decide)⟩

/-- Claim C9 (code bug): at `neighbors = [-1, 0, 1, 2]`,
`diagonals = [0, 1, 2, 3]`, `out_of_bounds = -1`, the sentinel occurs
among the neighbors, and `has_boundary_neighbor_slow` returns `True`
accordingly, but `has_boundary_neighbor` returns `False`: because of the
operator-precedence slip it only ever tests the diagonals. -/
theorem has_boundary_neighbor_at_failing_input :
    has_boundary_neighbor [-1, 0, 1, 2] [0, 1, 2, 3] (-1) = false ∧
    has_boundary_neighbor_slow [-1, 0, 1, 2] [0, 1, 2, 3] (-1) = true ∧
    (-1 : ℤ) ∈ [(-1 : ℤ), 0, 1, 2] := by decide

theorem getD_set_ne_list {β : Type} [Inhabited β] (l : List β) (i j : ℕ) (v d : β)
    (h : i ≠ j) : (l.set i v).getD j d = l.getD j d := by
  simp [List.getD, List.getElem?_set_ne h]

theorem getD_flatMap_uniform {β : Type} (g : ℕ → List β) (outer : List ℕ) (C : ℕ)
    (h : ∀ x ∈ outer, (g x).length = C) (i j : ℕ) (hi : i < outer.length)
    (hj : j < C) (d : β) :
    ((outer.flatMap g).getD (i * C + j) d) = (g (outer.getD i 0)).getD j d := by
  induction outer generalizing i with
  | nil => simp at hi
  | cons x rest ih =>
    rw [List.flatMap_cons]
    cases i with
    | zero =>
      have hx : (g x).length = C := h x (by simp)
      rw [Nat.zero_mul, Nat.zero_add,
        List.getD_append _ _ _ _ (by rw [hx]; exact hj)]
      simp
    | succ i =>
      have hx : (g x).length = C := h x (by simp)
      have hge : (g x).length ≤ (i + 1) * C + j := by
        rw [hx]; nlinarith
      rw [List.getD_append_right _ _ _ _ hge]
      have harith : (i + 1) * C + j - (g x).length = i * C + j := by
        rw [hx]; ring_nf; omega
      rw [harith, ih (fun y hy => h y (by simp [hy])) i (by simpa using hi)]
      simp

theorem getD_node_index_with_halo (rows cols : ℕ) (halo : ℤ) (hr hc : ℕ)
    (h1 : hr < rows + 2) (h2 : hc < cols + 2) (d : ℤ) :
    ((node_index_with_halo rows cols halo).getD hr []).getD hc d =
      haloFun rows cols halo hr hc := by
  have hrow : (node_index_with_halo rows cols halo).getD hr [] =
      (List.range (cols + 2)).map fun hc => haloFun rows cols halo hr hc := by
    rw [node_index_with_halo, List.getD_eq_getElem _ _ (by simpa using h1),
      List.getElem_map, List.getElem_range]
  rw [hrow, List.getD_eq_getElem _ _ (by simpa using h2), List.getElem_map,
    List.getElem_range]

theorem getD_diagonal_array (rows cols : ℕ) (ob : ℤ) (r c : ℕ)
    (hr : r < rows) (hc : c < cols) :
    (diagonal_array rows cols ob).getD (r * cols + c) [] =
      [ haloFun rows cols ob r c,
        haloFun rows cols ob r (c + 2),
        haloFun rows cols ob (r + 2) (c + 2),
        haloFun rows cols ob (r + 2) c ] := by
  rw [diagonal_array, getD_flatMap_uniform _ _ cols (fun x _ => by simp)
    r c (by simpa using hr) hc []]
  rw [List.getD_eq_getElem (List.range rows) 0 (by simpa using hr),
    List.getElem_range,
    List.getD_eq_getElem _ _ (by simpa using hc), List.getElem_map,
    List.getElem_range]
  rw [getD_node_index_with_halo rows cols ob r c (by omega) (by omega),
    getD_node_index_with_halo rows cols ob r (c + 2) (by omega) (by omega),
    getD_node_index_with_halo rows cols ob (r + 2) (c + 2) (by omega) (by omega),
    getD_node_index_with_halo rows cols ob (r + 2) c (by omega) (by omega)]

theorem length_foldl_set (pl : List (ℕ × ℕ)) (ix : ℕ × ℕ → ℕ)
    (f : ℕ × ℕ → List ℤ) (m : List (List ℤ)) :
    (pl.foldl (fun acc p => acc.set (ix p) (f p)) m).length = m.length := by
  induction pl generalizing m with
  | nil => rfl
  | cons x rest ih => rw [List.foldl_cons, ih, List.length_set]

theorem getD_foldl_set_of_forall_ne (pl : List (ℕ × ℕ)) (ix : ℕ × ℕ → ℕ)
    (f : ℕ × ℕ → List ℤ) (m : List (List ℤ)) (n : ℕ)
    (h : ∀ p ∈ pl, ix p ≠ n) :
    (pl.foldl (fun acc p => acc.set (ix p) (f p)) m).getD n [] = m.getD n [] := by
  induction pl generalizing m with
  | nil => rfl
  | cons x rest ih =>
    rw [List.foldl_cons, ih _ (fun p hp => h p (by simp [hp])),
      getD_set_ne_list _ _ _ _ _ (h x (by simp))]

theorem getD_foldl_set_unique (pl : List (ℕ × ℕ)) (ix : ℕ × ℕ → ℕ)
    (f : ℕ × ℕ → List ℤ) (m : List (List ℤ)) (n : ℕ) (hn : n < m.length)
    (hpw : pl.Pairwise fun p q => ix p ≠ ix q) :
    (pl.foldl (fun acc p => acc.set (ix p) (f p)) m).getD n [] =
      match pl.find? (fun p => ix p == n) with
      | some p => f p
      | none => m.getD n [] := by
  induction pl generalizing m with
  | nil => rfl
  | cons x rest ih =>
    rw [List.foldl_cons, List.find?_cons]
    rcases List.pairwise_cons.mp hpw with ⟨hx, hrest⟩
    by_cases hix : ix x = n
    · have hpred : (ix x == n) = true := by simpa using hix
      rw [hpred]
      rw [getD_foldl_set_of_forall_ne rest ix f _ n
        (fun p hp => by rw [← hix]; exact (hx p hp).symm)]
      rw [hix, List.getD_eq_getElem _ _ (by simpa using hn),
        List.getElem_set_self]
    · have hpred : (ix x == n) = false := by simpa using hix
      rw [hpred]
      rw [ih _ (by simpa using hn) hrest]
      cases hfind : rest.find? fun p => ix p == n with
      | some p => rfl
      | none => exact getD_set_ne_list _ _ _ _ _ hix

/-- Sanity check against the doctest
`diagonal_array((2, 3), out_of_bounds=-1)`. -/
theorem diagonal_array_2_3 :
    diagonal_array 2 3 (-1) =
      [[-1, -1, 4, -1], [-1, -1, 5, 3], [-1, -1, -1, 4],
       [-1, 1, -1, -1], [0, 2, -1, -1], [1, -1, -1, -1]] := by decide

theorem pairwise_slow_pairs (rows cols : ℕ) :
    ((List.range' 1 (rows - 2)) ×ˢ (List.range' 1 (cols - 2))).Pairwise
      fun p q : ℕ × ℕ => p.1 * cols + p.2 ≠ q.1 * cols + q.2 := by
  have hnd : ((List.range' 1 (rows - 2)) ×ˢ (List.range' 1 (cols - 2))).Nodup :=
    List.Nodup.product (List.nodup_range' 1 (rows - 2) 1 (by omega))
      (List.nodup_range' 1 (cols - 2) 1 (by omega))
  refine List.Pairwise.imp_of_mem ?_ hnd
  intro a b ha hb hne hix
  rw [List.mem_product] at ha hb
  obtain ⟨i, hi, hai⟩ := List.mem_range'.mp ha.2
  obtain ⟨j, hj, hbj⟩ := List.mem_range'.mp hb.2
  have ha2c : a.2 < cols := by omega
  have hb2c : b.2 < cols := by omega
  have hc : 0 < cols := by omega
  have hmod : a.2 = b.2 := by
    have h := congrArg (· % cols) hix
    simpa [Nat.mul_comm _ cols, Nat.mul_add_mod,
      Nat.mod_eq_of_lt ha2c, Nat.mod_eq_of_lt hb2c] using h
  have hdiv : a.1 = b.1 := by
    have h := congrArg (· / cols) hix
    simpa [Nat.mul_comm _ cols, Nat.mul_add_div hc,
      Nat.div_eq_of_lt ha2c, Nat.div_eq_of_lt hb2c] using h
  exact hne (Prod.ext hdiv hmod)

theorem getD_diagonal_array_slow_interior (rows cols r c : ℕ) (h1 : 1 ≤ r)
    (h2 : r + 1 < rows) (h3 : 1 ≤ c) (h4 : c + 1 < cols) :
    (diagonal_array_slow rows cols (-1)).getD (r * cols + c) [] =
      slowRow cols (r * cols + c) := by
  have hn : r * cols + c < rows * cols := by
    have : (r + 1) * cols ≤ rows * cols := Nat.mul_le_mul_right cols (by omega)
    nlinarith
  rw [diagonal_array_slow,
    getD_foldl_set_unique _ (fun p => p.1 * cols + p.2)
      (fun p => slowRow cols (p.1 * cols + p.2)) _ _ (by simpa using hn)
      (pairwise_slow_pairs rows cols)]
  have hmem : (r, c) ∈ (List.range' 1 (rows - 2)) ×ˢ (List.range' 1 (cols - 2)) := by
    rw [List.mem_product]
    exact ⟨List.mem_range'.mpr ⟨r - 1, by omega, by omega⟩,
      List.mem_range'.mpr ⟨c - 1, by omega, by omega⟩⟩
  have hsome : (((List.range' 1 (rows - 2)) ×ˢ (List.range' 1 (cols - 2))).find?
      fun p => p.1 * cols + p.2 == r * cols + c).isSome := by
    rw [List.find?_isSome]
    exact ⟨(r, c), hmem, by simp⟩
  obtain ⟨p, hp⟩ := Option.isSome_iff_exists.mp hsome
  rw [hp]
  have hpv : p.1 * cols + p.2 = r * cols + c := by simpa using List.find?_some hp
  show slowRow cols (↑p.1 * ↑cols + ↑p.2) = slowRow cols (↑r * ↑cols + ↑c)
  congr 1
  exact_mod_cast hpv

theorem getD_diagonal_array_slow_boundary (rows cols n : ℕ)
    (hn : n < rows * cols)
    (hb : ¬(1 ≤ n / cols ∧ n / cols + 1 < rows ∧ 1 ≤ n % cols ∧ n % cols + 1 < cols)) :
    (diagonal_array_slow rows cols (-1)).getD n [] = [-1, -1, -1, -1] := by
  have hforall : ∀ p ∈ (List.range' 1 (rows - 2)) ×ˢ (List.range' 1 (cols - 2)),
      p.1 * cols + p.2 ≠ n := by
    intro p hp hcontra
    rw [List.mem_product] at hp
    have hp1 := List.mem_range'.mp hp.1
    have hp2 := List.mem_range'.mp hp.2
    have hc : p.2 < cols := by omega
    have hcpos : 0 < cols := by omega
    have hdiv : n / cols = p.1 := by
      rw [← hcontra, Nat.mul_comm, Nat.mul_add_div hcpos, Nat.div_eq_of_lt hc]
      omega
    have hmod : n % cols = p.2 := by
      rw [← hcontra, Nat.mul_comm, Nat.mul_add_mod, Nat.mod_eq_of_lt hc]
    exact hb ⟨by omega, by omega, by omega, by omega⟩
  rw [diagonal_array_slow,
    getD_foldl_set_of_forall_ne _ (fun p => p.1 * cols + p.2)
      (fun p => slowRow cols (p.1 * cols + p.2)) _ _ hforall,
    List.getD_eq_getElem _ _ (by simpa using hn), List.getElem_replicate]

/-- Claim C10 (counterexample): on the 3×3 grid with sentinel `-1`,
`diagonal_array` and `diagonal_array_slow` return different tables
(interior rows are rotated by two positions and boundary rows differ). -/
theorem diagonal_array_ne_slow_3_3 :
    diagonal_array 3 3 (-1) ≠ diagonal_array_slow 3 3 (-1) := by decide

/-- Claim C10 (amended): for every shape and every interior node
`(r, c)`, row `r*cols + c` of `diagonal_array(shape, -1)` equals the
corresponding row of `diagonal_array_slow(shape, -1)` rotated left by
two positions (the fast table stores `[bottom-left, bottom-right,
top-right, top-left]`, the slow one `[top-right, top-left, bottom-left,
bottom-right]`); and in the slow table every entry of every
non-interior (boundary) node's row is `-1` (the fast table instead
stores the in-grid diagonal IDs of boundary nodes, as the
counterexample shows). -/
theorem diagonal_array_vs_slow (rows cols r c : ℕ) (h1 : 1 ≤ r)
    (h2 : r + 1 < rows) (h3 : 1 ≤ c) (h4 : c + 1 < cols) :
    ((diagonal_array rows cols (-1)).getD (r * cols + c) [] =
      ((diagonal_array_slow rows cols (-1)).getD (r * cols + c) []).rotateLeft 2) ∧
    (∀ n, n < rows * cols →
      ¬(1 ≤ n / cols ∧ n / cols + 1 < rows ∧ 1 ≤ n % cols ∧ n % cols + 1 < cols) →
      (diagonal_array_slow rows cols (-1)).getD n [] = [-1, -1, -1, -1]) := by
  constructor
  · rw [getD_diagonal_array rows cols (-1) r c (by omega) (by omega),
      getD_diagonal_array_slow_interior rows cols r c h1 h2 h3 h4, slowRow]
    rw [show ∀ a b c d : ℤ, ([a, b, c, d] : List ℤ).rotateLeft 2 = [c, d, a, b]
      from fun a b c d => rfl]
    simp only [haloFun, List.cons.injEq, and_true]
    refine ⟨?_, ?_, ?_, ?_⟩
    · rw [if_pos (by omega)]
      push_cast [Nat.cast_sub h1, Nat.cast_sub h3]
      ring
    · rw [if_pos (by omega)]
      have hcc : c + 2 - 1 = c + 1 := by omega
      rw [hcc]
      push_cast [Nat.cast_sub h1]
      ring
    · rw [if_pos (by omega)]
      have hrr : r + 2 - 1 = r + 1 := by omega
      have hcc : c + 2 - 1 = c + 1 := by omega
      rw [hrr, hcc]
      push_cast
      ring
    · rw [if_pos (by omega)]
      have hrr : r + 2 - 1 = r + 1 := by omega
      rw [hrr]
      push_cast [Nat.cast_sub h3]
      ring
  · intro n hn hb
    exact getD_diagonal_array_slow_boundary rows cols n hn hb

/-- Witness for the amended C10 at the 3×3 grid, interior node
`(r, c) = (1, 1)` (node 4). -/
theorem diagonal_array_vs_slow_witness :
    (1 ≤ 1 ∧ 1 + 1 < 3 ∧ 1 ≤ 1 ∧ 1 + 1 < 3) ∧
    (((diagonal_array 3 3 (-1)).getD (1 * 3 + 1) [] =
      ((diagonal_array_slow 3 3 (-1)).getD (1 * 3 + 1) []).rotateLeft 2) ∧
    (∀ n, n < 3 * 3 →
      ¬(1 ≤ n / 3 ∧ n / 3 + 1 < 3 ∧ 1 ≤ n % 3 ∧ n % 3 + 1 < 3) →
      (diagonal_array_slow 3 3 (-1)).getD n [] = [-1, -1, -1, -1])) :=
  ⟨by decide, diagonal_array_vs_slow 3 3 1 1 (by decide) (by decide)
    (by decide) (by decide)⟩

/-- Claim C7: constructing `FlowDirectorD8` against an irregular
(Voronoi/Delaunay) grid fails immediately at construction time with a
configuration error (`NotImplementedError`), before any routing;
construction against a regular raster grid succeeds. -/
theorem FlowDirectorD8_init_kind {α : Type} (g : D8Grid α) :
    (g.kind = GridKind.VoronoiDelaunay →
      FlowDirectorD8_init g = Except.error
        "FlowDirectorD8 not implemented for irregular grids, use FlowDirectorSteepest") ∧
    (g.kind = GridKind.Raster →
      FlowDirectorD8_init g =
        Except.ok ⟨g.bc_set_code, updated_boundary_conditions g⟩) := by
  constructor
  · intro h
    rw [FlowDirectorD8_init, if_pos h]
  · intro h
    rw [FlowDirectorD8_init, if_neg (by rw [h]; exact fun hc => GridKind.noConfusion hc)]

/-- Witness for C7: a concrete Voronoi grid is rejected and a concrete
raster grid is accepted. -/
theorem FlowDirectorD8_init_kind_witness :
    (FlowDirectorD8_init
        (D8Grid.mk (α := ℚ) GridKind.VoronoiDelaunay 3 3 (fun _ => 1)
          (fun _ => 0) (fun _ => 1) 0) = Except.error
        "FlowDirectorD8 not implemented for irregular grids, use FlowDirectorSteepest") ∧
    (FlowDirectorD8_init
        (D8Grid.mk (α := ℚ) GridKind.Raster 3 3 (fun _ => 1)
          (fun _ => 0) (fun _ => 1) 0) =
      Except.ok ⟨0, updated_boundary_conditions
        (D8Grid.mk (α := ℚ) GridKind.Raster 3 3 (fun _ => 1)
          (fun _ => 0) (fun _ => 1) 0)⟩) :=
  ⟨(FlowDirectorD8_init_kind _).1 rfl, (FlowDirectorD8_init_kind _).2 rfl⟩

/-- Claim C6: a routing invocation that starts with a
boundary-condition code different from the grid's re-derives the
active-link tables from the current node statuses and records the new
code, before gradients and receivers are computed; its outputs are
exactly those computed from the freshly derived active-link set, so a
call after a boundary-status mutation never uses the stale set. -/
theorem direct_flow_refreshes {α : Type} [LinearOrderedField α]
    (g : D8Grid α) (st : DirectorState)
    (h : st.bc_set_code ≠ g.bc_set_code) :
    (direct_flow g st).1 =
      ⟨g.bc_set_code, updated_boundary_conditions g⟩ ∧
    (direct_flow g st).2 =
      (direct_flow g ⟨g.bc_set_code, updated_boundary_conditions g⟩).2 := by
  constructor
  · simp only [direct_flow, if_pos h]
  · simp only [direct_flow, if_pos h,
      if_neg (show ¬(DirectorState.mk g.bc_set_code
        (updated_boundary_conditions g)).bc_set_code ≠ g.bc_set_code by simp)]

/-- Witness for C6 at a concrete stale state on a concrete 2×2 grid. -/
theorem direct_flow_refreshes_witness :
    ((0 : ℕ) ≠ (1 : ℕ)) ∧
    ((direct_flow (D8Grid.mk (α := ℚ) GridKind.Raster 2 2 (fun _ => 1)
        (fun _ => 0) (fun _ => 1) 1) ⟨0, []⟩).1 =
      ⟨1, updated_boundary_conditions
        (D8Grid.mk (α := ℚ) GridKind.Raster 2 2 (fun _ => 1)
          (fun _ => 0) (fun _ => 1) 1)⟩ ∧
    (direct_flow (D8Grid.mk (α := ℚ) GridKind.Raster 2 2 (fun _ => 1)
        (fun _ => 0) (fun _ => 1) 1) ⟨0, []⟩).2 =
      (direct_flow (D8Grid.mk (α := ℚ) GridKind.Raster 2 2 (fun _ => 1)
          (fun _ => 0) (fun _ => 1) 1)
        ⟨1, updated_boundary_conditions
          (D8Grid.mk (α := ℚ) GridKind.Raster 2 2 (fun _ => 1)
            (fun _ => 0) (fun _ => 1) 1)⟩).2) :=
  ⟨by decide, direct_flow_refreshes _ _ (by decide)⟩

/-- Claim C8: invoking routing (`run_one_step` / `direct_flow`) twice in
succession on an unchanged grid (same elevation field, node statuses
and boundary code) produces identical receiver / steepest-slope /
receiver-link / sink-flag arrays on both invocations. -/
theorem run_one_step_idempotent {α : Type} [LinearOrderedField α]
    (g : D8Grid α) (st : DirectorState) :
    (run_one_step g (run_one_step g st).1).2 = (run_one_step g st).2 := by
  by_cases h : st.bc_set_code ≠ g.bc_set_code
  · simp only [run_one_step, direct_flow, if_pos h,
      if_neg (show ¬(DirectorState.mk g.bc_set_code
        (updated_boundary_conditions g)).bc_set_code ≠ g.bc_set_code by simp)]
  · simp only [run_one_step, direct_flow, if_neg h]

theorem getD_set_char {β : Type} (l : List β) (k n : ℕ) (v d : β) :
    (l.set k v).getD n d = if k = n ∧ n < l.length then v else l.getD n d := by
  by_cases h1 : k = n ∧ n < l.length
  · obtain ⟨rfl, h2⟩ := h1
    rw [if_pos ⟨rfl, h2⟩, List.getD_eq_getElem _ _ (by simpa using h2),
      List.getElem_set_self]
  · rw [if_neg h1]
    by_cases hk : k = n
    · subst hk
      have hlen : l.length ≤ k := by
        rcases Nat.lt_or_ge k l.length with hlt | hge
        · exact absurd ⟨rfl, hlt⟩ h1
        · exact hge
      rw [List.set_eq_of_length_le hlen]
    · simp [List.getD, List.getElem?_set_ne hk]

theorem linkStep_receiver_length {α : Type} [LinearOrderedField α]
    (elev : ℕ → α) (st : RouteState α) (lk : LinkData α) :
    (linkStep elev st lk).receiver.length = st.receiver.length := by
  rw [linkStep]; split_ifs <;> simp

theorem linkStep_slope_length {α : Type} [LinearOrderedField α]
    (elev : ℕ → α) (st : RouteState α) (lk : LinkData α) :
    (linkStep elev st lk).steepest_slope.length = st.steepest_slope.length := by
  rw [linkStep]; split_ifs <;> simp

theorem linkStep_rlink_length {α : Type} [LinearOrderedField α]
    (elev : ℕ → α) (st : RouteState α) (lk : LinkData α) :
    (linkStep elev st lk).receiver_link.length = st.receiver_link.length := by
  rw [linkStep]; split_ifs <;> simp

theorem nodeInv_linkStep {α : Type} [LinearOrderedField α] (elev : ℕ → α)
    (st : RouteState α) (lk : LinkData α) (n : ℕ)
    (hlen : st.receiver.length = st.steepest_slope.length)
    (h : nodeInv st n) : nodeInv (linkStep elev st lk) n := by
  obtain ⟨hpos, hiff⟩ := h
  rw [linkStep]
  split_ifs with h1 h2
  · refine ⟨?_, ?_⟩
    · show 0 ≤ (st.steepest_slope.set lk.tail lk.slope).getD n 0
      rw [getD_set_char]
      split_ifs with hc
      · exact le_of_lt (lt_of_le_of_lt hpos (hc.1 ▸ h1.2))
      · exact hpos
    · show (st.steepest_slope.set lk.tail lk.slope).getD n 0 = 0 ↔
        (st.receiver.set lk.tail lk.head).getD n n = n
      rw [getD_set_char, getD_set_char, hlen]
      split_ifs with hc
      · have hlt : elev n > elev lk.head := hc.1 ▸ h1.1
        constructor
        · intro hz
          exact absurd hz (ne_of_gt (lt_of_le_of_lt hpos (hc.1 ▸ h1.2)))
        · intro hr
          exact absurd hlt (by rw [hr]; exact lt_irrefl _)
      · exact hiff
  · refine ⟨?_, ?_⟩
    · show 0 ≤ (st.steepest_slope.set lk.head (-lk.slope)).getD n 0
      rw [getD_set_char]
      split_ifs with hc
      · exact le_of_lt (lt_of_le_of_lt hpos (hc.1 ▸ h2.2))
      · exact hpos
    · show (st.steepest_slope.set lk.head (-lk.slope)).getD n 0 = 0 ↔
        (st.receiver.set lk.head lk.tail).getD n n = n
      rw [getD_set_char, getD_set_char, hlen]
      split_ifs with hc
      · have hlt : elev n > elev lk.tail := hc.1 ▸ h2.1
        constructor
        · intro hz
          exact absurd hz (ne_of_gt (lt_of_le_of_lt hpos (hc.1 ▸ h2.2)))
        · intro hr
          exact absurd hlt (by rw [hr]; exact lt_irrefl _)
      · exact hiff
  · exact ⟨hpos, hiff⟩

theorem nodeInv_baselevelStep {α : Type} [LinearOrderedField α]
    (st : RouteState α) (b n : ℕ)
    (hlen : st.receiver.length = st.steepest_slope.length)
    (h : nodeInv st n) :
    nodeInv ⟨st.receiver.set b b, st.steepest_slope.set b 0,
      st.receiver_link.set b (-1)⟩ n := by
  obtain ⟨hpos, hiff⟩ := h
  refine ⟨?_, ?_⟩
  · show 0 ≤ (st.steepest_slope.set b 0).getD n 0
    rw [getD_set_char]
    split_ifs with hc
    · exact le_refl 0
    · exact hpos
  · show (st.steepest_slope.set b 0).getD n 0 = 0 ↔
      (st.receiver.set b b).getD n n = n
    rw [getD_set_char, getD_set_char, hlen]
    split_ifs with hc
    · simpa using hc.1
    · exact hiff

theorem foldl_linkStep_receiver_length {α : Type} [LinearOrderedField α]
    (elev : ℕ → α) (LD : List (LinkData α)) (st : RouteState α) :
    (LD.foldl (linkStep elev) st).receiver.length = st.receiver.length := by
  induction LD generalizing st with
  | nil => rfl
  | cons lk rest ih => rw [List.foldl_cons, ih, linkStep_receiver_length]

theorem foldl_linkStep_slope_length {α : Type} [LinearOrderedField α]
    (elev : ℕ → α) (LD : List (LinkData α)) (st : RouteState α) :
    (LD.foldl (linkStep elev) st).steepest_slope.length =
      st.steepest_slope.length := by
  induction LD generalizing st with
  | nil => rfl
  | cons lk rest ih => rw [List.foldl_cons, ih, linkStep_slope_length]

theorem foldl_linkStep_rlink_length {α : Type} [LinearOrderedField α]
    (elev : ℕ → α) (LD : List (LinkData α)) (st : RouteState α) :
    (LD.foldl (linkStep elev) st).receiver_link.length =
      st.receiver_link.length := by
  induction LD generalizing st with
  | nil => rfl
  | cons lk rest ih => rw [List.foldl_cons, ih, linkStep_rlink_length]

theorem nodeInv_foldl_linkStep {α : Type} [LinearOrderedField α]
    (elev : ℕ → α) (LD : List (LinkData α)) (st : RouteState α) (n : ℕ)
    (hlen : st.receiver.length = st.steepest_slope.length)
    (h : nodeInv st n) : nodeInv (LD.foldl (linkStep elev) st) n := by
  induction LD generalizing st with
  | nil => exact h
  | cons lk rest ih =>
    rw [List.foldl_cons]
    exact ih (linkStep elev st lk)
      (by rw [linkStep_receiver_length, linkStep_slope_length]; exact hlen)
      (nodeInv_linkStep elev st lk n hlen h)

theorem nodeInv_foldl_baselevel {α : Type} [LinearOrderedField α]
    (bl : List ℕ) (st : RouteState α) (n : ℕ)
    (hlen : st.receiver.length = st.steepest_slope.length)
    (h : nodeInv st n) :
    nodeInv (bl.foldl (fun st b => RouteState.mk (st.receiver.set b b)
      (st.steepest_slope.set b 0) (st.receiver_link.set b (-1))) st) n := by
  induction bl generalizing st with
  | nil => exact h
  | cons b rest ih =>
    rw [List.foldl_cons]
    exact ih _ (by simpa using hlen) (nodeInv_baselevelStep st b n hlen h)

theorem nodeInv_flow_directions {α : Type} [LinearOrderedField α]
    (elev : ℕ → α) (N : ℕ) (links : List (LinkData α)) (bl : List ℕ)
    (n : ℕ) : nodeInv (flow_directions elev N links bl).1 n := by
  have h0 : nodeInv (RouteState.mk (List.range N) (List.replicate N (0 : α))
      (List.replicate N (-1 : ℤ))) n := by
    have hs : (List.replicate N (0 : α)).getD n 0 = 0 := by
      by_cases hn : n < N
      · rw [List.getD_eq_getElem _ _ (by simpa using hn), List.getElem_replicate]
      · rw [List.getD_eq_default _ _ (by simpa using Nat.le_of_not_lt hn)]
    have hr : (List.range N).getD n n = n := by
      by_cases hn : n < N
      · rw [List.getD_eq_getElem _ _ (by simpa using hn), List.getElem_range]
      · rw [List.getD_eq_default _ _ (by simpa using Nat.le_of_not_lt hn)]
    exact ⟨by rw [hs], by rw [hs, hr]; simp⟩
  exact nodeInv_foldl_baselevel bl _ n
    (by rw [foldl_linkStep_receiver_length, foldl_linkStep_slope_length]; simp)
    (nodeInv_foldl_linkStep elev links _ n (by simp) h0)

/-- Claim C5: after a routing invocation, every node's
`topographic__steepest_slope` entry is nonnegative, and it is zero if
and only if the node is its own `flow__receiver_node` entry. -/
theorem direct_flow_slope_nonneg_iff_self {α : Type} [LinearOrderedField α]
    (g : D8Grid α) (st : DirectorState) (n : ℕ) :
    0 ≤ (direct_flow g st).2.steepest_slope.getD n 0 ∧
    ((direct_flow g st).2.steepest_slope.getD n 0 = 0 ↔
      (direct_flow g st).2.receiver.getD n n = n) :=
  nodeInv_flow_directions g.elev (g.rows * g.cols) _ _ n

theorem getD_fold_set_true (l : List ℕ) (m : List Bool) (n : ℕ) :
    (l.foldl (fun fl i => fl.set i true) m).getD n false = true ↔
      (n ∈ l ∧ n < m.length) ∨ m.getD n false = true := by
  induction l generalizing m with
  | nil => simp
  | cons i rest ih =>
    rw [List.foldl_cons, ih, List.length_set, getD_set_char]
    constructor
    · rintro (⟨hmem, hlen⟩ | hval)
      · exact Or.inl ⟨List.mem_cons_of_mem _ hmem, hlen⟩
      · split_ifs at hval with hc
        · exact Or.inl ⟨by simp [hc.1.symm], hc.2⟩
        · exact Or.inr hval
    · rintro (⟨hmem, hlen⟩ | hval)
      · rcases List.mem_cons.mp hmem with rfl | hmem
        · exact Or.inr (by rw [if_pos ⟨rfl, hlen⟩])
        · exact Or.inl ⟨hmem, hlen⟩
      · refine Or.inr ?_
        split_ifs with hc
        · rfl
        · exact hval

theorem flow_directions_sink_flag {α : Type} [LinearOrderedField α]
    (elev : ℕ → α) (N : ℕ) (links : List (LinkData α)) (bl : List ℕ)
    (n : ℕ) (h : n < N) :
    (((flow_directions elev N links bl).2.foldl
        (fun fl i => fl.set i true) (List.replicate N false)).getD n false = true ↔
      (flow_directions elev N links bl).1.receiver.getD n n = n) := by
  rw [getD_fold_set_true]
  have hmemiff : n ∈ (flow_directions elev N links bl).2 ↔
      n < N ∧ (flow_directions elev N links bl).1.receiver.getD n n = n := by
    show n ∈ (List.range N).filter
      (fun i => (flow_directions elev N links bl).1.receiver.getD i i == i) ↔ _
    rw [List.mem_filter, List.mem_range]
    simp only [beq_iff_eq]
  have hrep : (List.replicate N false).getD n false = false := by
    rw [List.getD_eq_getElem _ _ (by simpa using h), List.getElem_replicate]
  rw [hrep, hmemiff]
  simp only [List.length_replicate, Bool.false_eq_true, or_false]
  constructor
  · rintro ⟨⟨-, hrecv⟩, -⟩
    exact hrecv
  · intro hrecv
    exact ⟨⟨h, hrecv⟩, h⟩

/-- Claim C4 (amended): after a routing invocation,
`flow__sink_flag[n]` is true if and only if `receiver[n] == n` — all
self-receivers are flagged, including base-level (fixed value / fixed
gradient) nodes, which `flow_directions` turns into self-receivers
before the sink list is taken. -/
theorem direct_flow_sink_iff {α : Type} [LinearOrderedField α]
    (g : D8Grid α) (st : DirectorState) (n : ℕ)
    (h : n < g.rows * g.cols) :
    ((direct_flow g st).2.sink_flag.getD n false = true ↔
      (direct_flow g st).2.receiver.getD n n = n) :=
  flow_directions_sink_flag g.elev (g.rows * g.cols) _ _ n h

/-- Claim C4 (counterexample): on the flat 3×3 grid, node 0 is a
fixed-value (base-level) node and its own receiver, and the code flags
it as a sink — contradicting the claim that a base-level node is never
flagged. -/
theorem sink_flag_baselevel_counterexample :
    ¬ (((direct_flow gflat ⟨0, []⟩).2.sink_flag.getD 0 false = true) ↔
       ((direct_flow gflat ⟨0, []⟩).2.receiver.getD 0 0 = 0 ∧
        gflat.status_at_node 0 ≠ FIXED_VALUE_BOUNDARY ∧
        gflat.status_at_node 0 ≠ FIXED_GRADIENT_BOUNDARY)) := by decide

/-- Witness for the amended C4 at node 0 of the flat 3×3 grid. -/
theorem direct_flow_sink_iff_witness :
    (0 < gflat.rows * gflat.cols) ∧
    ((direct_flow gflat ⟨0, []⟩).2.sink_flag.getD 0 false = true ↔
      (direct_flow gflat ⟨0, []⟩).2.receiver.getD 0 0 = 0) :=
  ⟨by decide, direct_flow_sink_iff gflat ⟨0, []⟩ 0 (by decide)⟩

theorem linkStep_node_cases {α : Type} [LinearOrderedField α] (elev : ℕ → α)
    (st : RouteState α) (lk : LinkData α) (n : ℕ)
    (hlen : st.receiver.length = st.steepest_slope.length)
    (hlen2 : st.receiver.length = st.receiver_link.length)
    (hn : n < st.receiver.length) :
    ((linkStep elev st lk).steepest_slope.getD n 0 = st.steepest_slope.getD n 0 ∧
     (linkStep elev st lk).receiver.getD n n = st.receiver.getD n n ∧
     (linkStep elev st lk).receiver_link.getD n (-1) = st.receiver_link.getD n (-1) ∧
     (isCand elev n lk → candGrad n lk ≤ st.steepest_slope.getD n 0)) ∨
    (isCand elev n lk ∧
     st.steepest_slope.getD n 0 < candGrad n lk ∧
     (linkStep elev st lk).steepest_slope.getD n 0 = candGrad n lk ∧
     (linkStep elev st lk).receiver.getD n n = candOther n lk ∧
     (linkStep elev st lk).receiver_link.getD n (-1) = lk.id) := by
  have hnS : n < st.steepest_slope.length := hlen ▸ hn
  have hnL : n < st.receiver_link.length := hlen2 ▸ hn
  rw [linkStep]
  split_ifs with h1 h2
  · -- the tail is the higher endpoint and this link improves it
    by_cases htn : lk.tail = n
    · refine Or.inr ⟨Or.inl ⟨htn, htn ▸ h1.1⟩,
        (by rw [candGrad, if_pos htn, ← htn]; exact h1.2), ?_, ?_, ?_⟩
      · show (st.steepest_slope.set lk.tail lk.slope).getD n 0 = candGrad n lk
        rw [getD_set_char, if_pos ⟨htn, hnS⟩, candGrad, if_pos htn]
      · show (st.receiver.set lk.tail lk.head).getD n n = candOther n lk
        rw [getD_set_char, if_pos ⟨htn, hn⟩, candOther, if_pos htn]
      · show (st.receiver_link.set lk.tail (lk.id : ℤ)).getD n (-1) = lk.id
        rw [getD_set_char, if_pos ⟨htn, hnL⟩]
    · refine Or.inl ⟨?_, ?_, ?_, ?_⟩
      · show (st.steepest_slope.set lk.tail lk.slope).getD n 0 = _
        rw [getD_set_char, if_neg (fun hc => htn hc.1)]
      · show (st.receiver.set lk.tail lk.head).getD n n = _
        rw [getD_set_char, if_neg (fun hc => htn hc.1)]
      · show (st.receiver_link.set lk.tail (lk.id : ℤ)).getD n (-1) = _
        rw [getD_set_char, if_neg (fun hc => htn hc.1)]
      · rintro (⟨ht, -⟩ | ⟨hh, hlt⟩)
        · exact absurd ht htn
        · exact absurd (hh ▸ hlt) (not_lt_of_gt h1.1)
  · -- the head is the higher endpoint and this link improves it
    by_cases hhn : lk.head = n
    · have htn : lk.tail ≠ n := by
        intro ht
        exact absurd h2.1 (by rw [ht, hhn]; exact lt_irrefl _)
      refine Or.inr ⟨Or.inr ⟨hhn, hhn ▸ h2.1⟩, ?_, ?_, ?_, ?_⟩
      · rw [candGrad, if_neg htn]
        exact hhn ▸ h2.2
      · show (st.steepest_slope.set lk.head (-lk.slope)).getD n 0 = candGrad n lk
        rw [getD_set_char, if_pos ⟨hhn, hnS⟩, candGrad, if_neg htn]
      · show (st.receiver.set lk.head lk.tail).getD n n = candOther n lk
        rw [getD_set_char, if_pos ⟨hhn, hn⟩, candOther, if_neg htn]
      · show (st.receiver_link.set lk.head (lk.id : ℤ)).getD n (-1) = lk.id
        rw [getD_set_char, if_pos ⟨hhn, hnL⟩]
    · refine Or.inl ⟨?_, ?_, ?_, ?_⟩
      · show (st.steepest_slope.set lk.head (-lk.slope)).getD n 0 = _
        rw [getD_set_char, if_neg (fun hc => hhn hc.1)]
      · show (st.receiver.set lk.head lk.tail).getD n n = _
        rw [getD_set_char, if_neg (fun hc => hhn hc.1)]
      · show (st.receiver_link.set lk.head (lk.id : ℤ)).getD n (-1) = _
        rw [getD_set_char, if_neg (fun hc => hhn hc.1)]
      · rintro (⟨ht, hlt⟩ | ⟨hh, -⟩)
        · exact absurd (ht ▸ hlt) (not_lt_of_gt h2.1)
        · exact absurd hh hhn
  · -- no update: on a candidate the improvement test must have failed
    refine Or.inl ⟨rfl, rfl, rfl, ?_⟩
    rintro (⟨ht, hlt⟩ | ⟨hh, hlt⟩)
    · have helev : elev lk.tail > elev lk.head := by rw [ht]; exact hlt
      have := fun hs => h1 ⟨helev, hs⟩
      rw [candGrad, if_pos ht]
      rw [← ht]
      exact le_of_not_lt this
    · have helev : elev lk.head > elev lk.tail := by rw [hh]; exact hlt
      have htn : lk.tail ≠ n := by
        intro ht
        rw [ht] at hlt
        exact lt_irrefl _ hlt
      have := fun hs => h2 ⟨helev, hs⟩
      rw [candGrad, if_neg htn]
      rw [← hh]
      exact le_of_not_lt this

theorem foldl_linkStep_steepest {α : Type} [LinearOrderedField α]
    (elev : ℕ → α) (n : ℕ) (LD : List (LinkData α)) :
    ∀ st : RouteState α,
      st.receiver.length = st.steepest_slope.length →
      st.receiver.length = st.receiver_link.length →
      n < st.receiver.length →
      (st.steepest_slope.getD n 0 ≤
        (LD.foldl (linkStep elev) st).steepest_slope.getD n 0) ∧
      (∀ lk ∈ LD, isCand elev n lk →
        candGrad n lk ≤ (LD.foldl (linkStep elev) st).steepest_slope.getD n 0) ∧
      (((LD.foldl (linkStep elev) st).steepest_slope.getD n 0 =
          st.steepest_slope.getD n 0 ∧
        (LD.foldl (linkStep elev) st).receiver.getD n n = st.receiver.getD n n ∧
        (LD.foldl (linkStep elev) st).receiver_link.getD n (-1) =
          st.receiver_link.getD n (-1)) ∨
       (∃ lk ∈ LD, isCand elev n lk ∧
         (LD.foldl (linkStep elev) st).steepest_slope.getD n 0 = candGrad n lk ∧
         (LD.foldl (linkStep elev) st).receiver.getD n n = candOther n lk ∧
         (LD.foldl (linkStep elev) st).receiver_link.getD n (-1) = lk.id)) := by
  induction LD with
  | nil =>
    intro st _ _ _
    exact ⟨le_refl _, by simp, Or.inl ⟨rfl, rfl, rfl⟩⟩
  | cons lk rest ih =>
    intro st h1 h2 h3
    have hl1 : (linkStep elev st lk).receiver.length =
        (linkStep elev st lk).steepest_slope.length := by
      rw [linkStep_receiver_length, linkStep_slope_length]; exact h1
    have hl2 : (linkStep elev st lk).receiver.length =
        (linkStep elev st lk).receiver_link.length := by
      rw [linkStep_receiver_length, linkStep_rlink_length]; exact h2
    have hn1 : n < (linkStep elev st lk).receiver.length := by
      rw [linkStep_receiver_length]; exact h3
    obtain ⟨ihmono, ihbound, ihdisj⟩ := ih (linkStep elev st lk) hl1 hl2 hn1
    rw [List.foldl_cons]
    rcases linkStep_node_cases elev st lk n h1 h2 h3 with
      ⟨hs, hr, hrl, hvac⟩ | ⟨hcand, hlt, hs, hr, hrl⟩
    · refine ⟨hs.symm.trans_le ihmono, ?_, ?_⟩
      · intro lk' hmem hc
        rcases List.mem_cons.mp hmem with rfl | hmem'
        · exact le_trans (le_trans (hvac hc) hs.ge) ihmono
        · exact ihbound lk' hmem' hc
      · rcases ihdisj with ⟨fs, fr, frl⟩ | ⟨lk', hmem', hc', e1, e2, e3⟩
        · exact Or.inl ⟨fs.trans hs, fr.trans hr, frl.trans hrl⟩
        · exact Or.inr ⟨lk', List.mem_cons_of_mem _ hmem', hc', e1, e2, e3⟩
    · refine ⟨le_trans (le_of_lt (lt_of_lt_of_le hlt hs.ge)) ihmono, ?_, ?_⟩
      · intro lk' hmem hc
        rcases List.mem_cons.mp hmem with rfl | hmem'
        · exact le_trans hs.ge ihmono
        · exact ihbound lk' hmem' hc
      · rcases ihdisj with ⟨fs, fr, frl⟩ | ⟨lk', hmem', hc', e1, e2, e3⟩
        · exact Or.inr ⟨lk, List.mem_cons_self _ _, hcand,
            fs.trans hs, fr.trans hr, frl.trans hrl⟩
        · exact Or.inr ⟨lk', List.mem_cons_of_mem _ hmem', hc', e1, e2, e3⟩

theorem foldl_baselevel_untouched {α : Type} [LinearOrderedField α]
    (bl : List ℕ) (st : RouteState α) (n : ℕ) (h : n ∉ bl) :
    ((bl.foldl (fun st b => RouteState.mk (st.receiver.set b b)
        (st.steepest_slope.set b 0) (st.receiver_link.set b (-1)))
        st).steepest_slope.getD n 0 = st.steepest_slope.getD n 0) ∧
    ((bl.foldl (fun st b => RouteState.mk (st.receiver.set b b)
        (st.steepest_slope.set b 0) (st.receiver_link.set b (-1)))
        st).receiver.getD n n = st.receiver.getD n n) ∧
    ((bl.foldl (fun st b => RouteState.mk (st.receiver.set b b)
        (st.steepest_slope.set b 0) (st.receiver_link.set b (-1)))
        st).receiver_link.getD n (-1) = st.receiver_link.getD n (-1)) := by
  induction bl generalizing st with
  | nil => exact ⟨rfl, rfl, rfl⟩
  | cons b rest ih =>
    have hb : b ≠ n := fun hc => h (by simp [hc])
    have hrest : n ∉ rest := fun hc => h (by simp [hc])
    rw [List.foldl_cons]
    obtain ⟨e1, e2, e3⟩ := ih _ hrest
    refine ⟨e1.trans ?_, e2.trans ?_, e3.trans ?_⟩
    · show (st.steepest_slope.set b 0).getD n 0 = _
      rw [getD_set_char, if_neg (fun hc => hb hc.1)]
    · show (st.receiver.set b b).getD n n = _
      rw [getD_set_char, if_neg (fun hc => hb hc.1)]
    · show (st.receiver_link.set b (-1)).getD n (-1) = _
      rw [getD_set_char, if_neg (fun hc => hb hc.1)]

theorem zipWith_map_right_self {β γ δ : Type} (f : β → γ → δ) (u : β → γ)
    (l : List β) : List.zipWith f l (l.map u) = l.map fun x => f x (u x) := by
  induction l with
  | nil => rfl
  | cons x rest ih => simp [ih]

theorem direct_flow_links_eq {α : Type} [LinearOrderedField α]
    (g : D8Grid α) (cache : List (ℕ × ℕ × ℕ)) :
    List.zipWith (fun (l : ℕ × ℕ × ℕ) (s : α) => LinkData.mk l.1 l.2.1 l.2.2 s)
      cache ((d8_gradients g cache).map Neg.neg) = cache.map (lkOf g) := by
  rw [d8_gradients, List.map_map]
  exact zipWith_map_right_self _ _ cache

theorem isCand_lkOf_iff {α : Type} [LinearOrderedField α] (g : D8Grid α)
    (n : ℕ) (l : ℕ × ℕ × ℕ) :
    isCand g.elev n (lkOf g l) ↔
      ((l.2.1 == n && decide (g.elev l.2.2 < g.elev l.2.1)) ||
       (l.2.2 == n && decide (g.elev l.2.1 < g.elev l.2.2))) = true := by
  simp only [isCand, lkOf, Bool.or_eq_true, Bool.and_eq_true, beq_iff_eq,
    decide_eq_true_eq]
  constructor
  · rintro (⟨ht, hlt⟩ | ⟨hh, hlt⟩)
    · refine Or.inl ⟨ht, ?_⟩; rw [ht]; exact hlt
    · refine Or.inr ⟨hh, ?_⟩; rw [hh]; exact hlt
  · rintro (⟨ht, hlt⟩ | ⟨hh, hlt⟩)
    · refine Or.inl ⟨ht, ?_⟩; rw [← ht]; exact hlt
    · refine Or.inr ⟨hh, ?_⟩; rw [← hh]; exact hlt

theorem candGrad_lkOf {α : Type} [LinearOrderedField α] (g : D8Grid α)
    (n : ℕ) (l : ℕ × ℕ × ℕ) (h : isCand g.elev n (lkOf g l)) :
    candGrad n (lkOf g l) = gradFrom g n l ∧
      candOther n (lkOf g l) = linkOther n l := by
  by_cases ht : l.2.1 = n
  · constructor
    · rw [candGrad, if_pos (show (lkOf g l).tail = n from ht),
        gradFrom, linkOther, if_pos ht]
      show -((g.elev l.2.2 - g.elev l.2.1) / g.link_length l.1) = _
      rw [ht, ← neg_div, neg_sub]
    · rw [candOther, if_pos (show (lkOf g l).tail = n from ht),
        linkOther, if_pos ht]
      rfl
  · have hh : l.2.2 = n := by
      rcases h with ⟨ht', -⟩ | ⟨hh, -⟩
      · exact absurd ht' ht
      · exact hh
    constructor
    · rw [candGrad, if_neg (show ¬(lkOf g l).tail = n from ht),
        gradFrom, linkOther, if_neg ht]
      show -(-((g.elev l.2.2 - g.elev l.2.1) / g.link_length l.1)) = _
      rw [neg_neg, hh]
    · rw [candOther, if_neg (show ¬(lkOf g l).tail = n from ht),
        linkOther, if_neg ht]
      rfl

theorem gradFrom_pos {α : Type} [LinearOrderedField α] (g : D8Grid α)
    (n : ℕ) (l : ℕ × ℕ × ℕ) (hpos : 0 < g.link_length l.1)
    (h : l ∈ outgoingLinks g n) : 0 < gradFrom g n l := by
  rw [outgoingLinks, List.mem_filter] at h
  have hp := h.2
  simp only [Bool.or_eq_true, Bool.and_eq_true, beq_iff_eq,
    decide_eq_true_eq] at hp
  rw [gradFrom]
  apply div_pos _ hpos
  rw [sub_pos]
  rcases hp with ⟨ht, hlt⟩ | ⟨hh, hlt⟩
  · rw [linkOther, if_pos ht]
    rw [ht] at hlt
    exact hlt
  · rw [linkOther]
    by_cases h21 : l.2.1 = n
    · rw [h21, hh] at hlt
      exact absurd hlt (lt_irrefl _)
    · rw [if_neg h21]
      rw [hh] at hlt
      exact hlt

theorem not_mem_baselevel {α : Type} (g : D8Grid α) (n : ℕ)
    (h1 : g.status_at_node n ≠ FIXED_VALUE_BOUNDARY)
    (h2 : g.status_at_node n ≠ FIXED_GRADIENT_BOUNDARY) :
    n ∉ (List.range (g.rows * g.cols)).filter fun k =>
      g.status_at_node k == FIXED_VALUE_BOUNDARY ||
      g.status_at_node k == FIXED_GRADIENT_BOUNDARY := by
  intro hmem
  rw [List.mem_filter] at hmem
  rcases Bool.or_eq_true _ _ |>.mp hmem.2 with hv | hv
  · exact h1 (by simpa using hv)
  · exact h2 (by simpa using hv)

theorem direct_flow_fields {α : Type} [LinearOrderedField α] (g : D8Grid α)
    (st : DirectorState)
    (hsync : st.active_links_cache =
      d8_active_links g.rows g.cols g.status_at_node) :
    (direct_flow g st).2.steepest_slope =
      (flow_directions g.elev (g.rows * g.cols)
        ((d8_active_links g.rows g.cols g.status_at_node).map (lkOf g))
        ((List.range (g.rows * g.cols)).filter fun k =>
          g.status_at_node k == FIXED_VALUE_BOUNDARY ||
          g.status_at_node k == FIXED_GRADIENT_BOUNDARY)).1.steepest_slope ∧
    (direct_flow g st).2.receiver =
      (flow_directions g.elev (g.rows * g.cols)
        ((d8_active_links g.rows g.cols g.status_at_node).map (lkOf g))
        ((List.range (g.rows * g.cols)).filter fun k =>
          g.status_at_node k == FIXED_VALUE_BOUNDARY ||
          g.status_at_node k == FIXED_GRADIENT_BOUNDARY)).1.receiver ∧
    (direct_flow g st).2.receiver_link =
      (flow_directions g.elev (g.rows * g.cols)
        ((d8_active_links g.rows g.cols g.status_at_node).map (lkOf g))
        ((List.range (g.rows * g.cols)).filter fun k =>
          g.status_at_node k == FIXED_VALUE_BOUNDARY ||
          g.status_at_node k == FIXED_GRADIENT_BOUNDARY)).1.receiver_link ∧
    (direct_flow g st).2.sink_flag =
      ((flow_directions g.elev (g.rows * g.cols)
        ((d8_active_links g.rows g.cols g.status_at_node).map (lkOf g))
        ((List.range (g.rows * g.cols)).filter fun k =>
          g.status_at_node k == FIXED_VALUE_BOUNDARY ||
          g.status_at_node k == FIXED_GRADIENT_BOUNDARY)).2.foldl
        (fun fl i => fl.set i true)
        (List.replicate (g.rows * g.cols) false)) := by
  have hcache : (if st.bc_set_code ≠ g.bc_set_code then
      DirectorState.mk g.bc_set_code (updated_boundary_conditions g)
      else st).active_links_cache =
      d8_active_links g.rows g.cols g.status_at_node := by
    split_ifs with hc
    · rfl
    · exact hsync
  refine ⟨?_, ?_, ?_, ?_⟩ <;>
    · simp only [direct_flow]
      rw [direct_flow_links_eq, hcache]

/-- Claim C1 (amended): for every non-base-level node `n` with at least
one active outgoing link, after a routing invocation whose cached
active links agree with the current statuses, `steepest_slope[n]`
equals the maximum of `(elev[n] - elev[m]) / length(L)` over the active
outgoing links of `n` (it bounds them all and is attained),
`receiver[n]` is a neighbour attaining that maximum, and
`link_to_receiver[n]` is the ID of the attaining link.  Base-level
nodes are excluded: `flow_directions` resets them to self-receivers
with slope 0 even when they have active outgoing links, as the
counterexample shows. -/
theorem direct_flow_steepest_selection {α : Type} [LinearOrderedField α]
    (g : D8Grid α) (st : DirectorState) (n : ℕ)
    (hsync : st.active_links_cache =
      d8_active_links g.rows g.cols g.status_at_node)
    (hlenpos : ∀ i, 0 < g.link_length i)
    (hnb1 : g.status_at_node n ≠ FIXED_VALUE_BOUNDARY)
    (hnb2 : g.status_at_node n ≠ FIXED_GRADIENT_BOUNDARY)
    (hn : n < g.rows * g.cols)
    (hne : outgoingLinks g n ≠ []) :
    (∀ l ∈ outgoingLinks g n,
      gradFrom g n l ≤ (direct_flow g st).2.steepest_slope.getD n 0) ∧
    (∃ l ∈ outgoingLinks g n,
      (direct_flow g st).2.steepest_slope.getD n 0 = gradFrom g n l ∧
      (direct_flow g st).2.receiver.getD n n = linkOther n l ∧
      (direct_flow g st).2.receiver_link.getD n (-1) = (l.1 : ℤ)) := by
  obtain ⟨hfs, hfr, hfrl, -⟩ := direct_flow_fields g st hsync
  obtain ⟨hmono, hbound, hdisj⟩ :=
    foldl_linkStep_steepest g.elev n
      ((d8_active_links g.rows g.cols g.status_at_node).map (lkOf g))
      ⟨List.range (g.rows * g.cols), List.replicate (g.rows * g.cols) 0,
        List.replicate (g.rows * g.cols) (-1)⟩
      (by simp) (by simp) (by simpa using hn)
  have hnotbl := not_mem_baselevel g n hnb1 hnb2
  obtain ⟨hu1, hu2, hu3⟩ :=
    foldl_baselevel_untouched
      ((List.range (g.rows * g.cols)).filter fun k =>
        g.status_at_node k == FIXED_VALUE_BOUNDARY ||
        g.status_at_node k == FIXED_GRADIENT_BOUNDARY)
      (((d8_active_links g.rows g.cols g.status_at_node).map (lkOf g)).foldl
        (linkStep g.elev)
        ⟨List.range (g.rows * g.cols), List.replicate (g.rows * g.cols) 0,
          List.replicate (g.rows * g.cols) (-1)⟩)
      n hnotbl
  have hS : (direct_flow g st).2.steepest_slope.getD n 0 =
      (((d8_active_links g.rows g.cols g.status_at_node).map (lkOf g)).foldl
        (linkStep g.elev)
        ⟨List.range (g.rows * g.cols), List.replicate (g.rows * g.cols) 0,
          List.replicate (g.rows * g.cols) (-1)⟩).steepest_slope.getD n 0 := by
    rw [hfs]; exact hu1
  have hR : (direct_flow g st).2.receiver.getD n n =
      (((d8_active_links g.rows g.cols g.status_at_node).map (lkOf g)).foldl
        (linkStep g.elev)
        ⟨List.range (g.rows * g.cols), List.replicate (g.rows * g.cols) 0,
          List.replicate (g.rows * g.cols) (-1)⟩).receiver.getD n n := by
    rw [hfr]; exact hu2
  have hRL : (direct_flow g st).2.receiver_link.getD n (-1) =
      (((d8_active_links g.rows g.cols g.status_at_node).map (lkOf g)).foldl
        (linkStep g.elev)
        ⟨List.range (g.rows * g.cols), List.replicate (g.rows * g.cols) 0,
          List.replicate (g.rows * g.cols) (-1)⟩).receiver_link.getD n (-1) := by
    rw [hfrl]; exact hu3
  constructor
  · intro l hl
    have hlf := List.mem_filter.mp hl
    have hcand : isCand g.elev n (lkOf g l) := (isCand_lkOf_iff g n l).mpr hlf.2
    have hb := hbound (lkOf g l) (List.mem_map_of_mem _ hlf.1) hcand
    rw [hS]
    calc gradFrom g n l = candGrad n (lkOf g l) :=
          ((candGrad_lkOf g n l hcand).1).symm
      _ ≤ _ := hb
  · rcases hdisj with ⟨fs, fr, frl⟩ | ⟨lk, hmem, hcand, e1, e2, e3⟩
    · exfalso
      obtain ⟨l0, hl0⟩ := List.exists_mem_of_ne_nil _ hne
      have hl0f := List.mem_filter.mp hl0
      have hcand0 : isCand g.elev n (lkOf g l0) :=
        (isCand_lkOf_iff g n l0).mpr hl0f.2
      have hb := hbound (lkOf g l0) (List.mem_map_of_mem _ hl0f.1) hcand0
      have h0 : (List.replicate (g.rows * g.cols) (0 : α)).getD n 0 = 0 := by
        rw [List.getD_eq_getElem _ _ (by simpa using hn), List.getElem_replicate]
      rw [fs, h0] at hb
      have hgr : 0 < candGrad n (lkOf g l0) := by
        rw [(candGrad_lkOf g n l0 hcand0).1]
        exact gradFrom_pos g n l0 (hlenpos _) hl0
      exact absurd (lt_of_lt_of_le hgr hb) (lt_irrefl 0)
    · obtain ⟨l, hlmem, hlk⟩ := List.mem_map.mp hmem
      subst hlk
      have hpred := (isCand_lkOf_iff g n l).mp hcand
      have hout : l ∈ outgoingLinks g n := List.mem_filter.mpr ⟨hlmem, hpred⟩
      obtain ⟨hg, ho⟩ := candGrad_lkOf g n l hcand
      refine ⟨l, hout, ?_, ?_, ?_⟩
      · rw [hS, e1, hg]
      · rw [hR, e2, ho]
      · rw [hRL, e3]
        rfl

theorem foldl_baselevel_member {α : Type} [LinearOrderedField α]
    (bl : List ℕ) (st : RouteState α) (b : ℕ) (hmem : b ∈ bl)
    (hb : b < st.steepest_slope.length) :
    ((bl.foldl (fun st b => RouteState.mk (st.receiver.set b b)
        (st.steepest_slope.set b 0) (st.receiver_link.set b (-1)))
        st).steepest_slope.getD b 0) = 0 := by
  induction bl generalizing st with
  | nil => exact absurd hmem (List.not_mem_nil b)
  | cons x rest ih =>
    rw [List.foldl_cons]
    by_cases hbr : b ∈ rest
    · exact ih _ hbr (by simpa using hb)
    · have hbx : x = b := by
        rcases List.mem_cons.mp hmem with h | h
        · exact h.symm
        · exact absurd h hbr
      subst hbx
      have hu := (foldl_baselevel_untouched rest
        ⟨st.receiver.set x x, st.steepest_slope.set x 0,
          st.receiver_link.set x (-1)⟩ x hbr).1
      rw [hu]
      show (st.steepest_slope.set x 0).getD x 0 = 0
      rw [getD_set_char, if_pos ⟨rfl, hb⟩]

/-- Claim C1 (counterexample): node 1 of `grid3spike` is a fixed-value
(base-level) node with an active outgoing link to the strictly lower
node 4, yet after routing its steepest slope is 0, not the maximum
outgoing gradient 4 — `flow_directions` resets base-level nodes to
slope 0. -/
theorem steepest_selection_counterexample :
    outgoingLinks grid3spike 1 ≠ [] ∧
    ¬ (∀ l ∈ outgoingLinks grid3spike 1,
        gradFrom grid3spike 1 l ≤
          (direct_flow grid3spike
            ⟨1, d8_active_links 3 3 status3⟩).2.steepest_slope.getD 1 0) := by
  obtain ⟨hfs, -, -, -⟩ :=
    direct_flow_fields grid3spike ⟨1, d8_active_links 3 3 status3⟩ rfl
  have hslope : (direct_flow grid3spike
      ⟨1, d8_active_links 3 3 status3⟩).2.steepest_slope.getD 1 0 = 0 := by
    rw [hfs]
    exact foldl_baselevel_member _ _ 1 (by decide)
      (by rw [foldl_linkStep_slope_length]; simp; decide)
  refine ⟨by decide, fun hall => ?_⟩
  have h14 : (1, 1, 4) ∈ outgoingLinks grid3spike 1 := by decide
  have hle := hall _ h14
  rw [hslope] at hle
  have hg : gradFrom grid3spike 1 (1, 1, 4) = 4 := by
    norm_num [gradFrom, linkOther, grid3spike]
  rw [hg] at hle
  norm_num at hle

/-- Witness for the amended C1 at interior node 4 of the 3×3 doctest
grid with unit link lengths. -/
theorem direct_flow_steepest_selection_witness :
    (outgoingLinks grid3unit 4 ≠ []) ∧
    (∀ l ∈ outgoingLinks grid3unit 4,
      gradFrom grid3unit 4 l ≤
        (direct_flow grid3unit ⟨1, d8_active_links 3 3 status3⟩).2.steepest_slope.getD 4 0) ∧
    (∃ l ∈ outgoingLinks grid3unit 4,
      (direct_flow grid3unit ⟨1, d8_active_links 3 3 status3⟩).2.steepest_slope.getD 4 0 =
        gradFrom grid3unit 4 l ∧
      (direct_flow grid3unit ⟨1, d8_active_links 3 3 status3⟩).2.receiver.getD 4 4 =
        linkOther 4 l ∧
      (direct_flow grid3unit ⟨1, d8_active_links 3 3 status3⟩).2.receiver_link.getD 4 (-1) =
        (l.1 : ℤ)) :=
  ⟨by decide,
   direct_flow_steepest_selection grid3unit ⟨1, d8_active_links 3 3 status3⟩ 4
     rfl (fun _ => one_pos) (by decide) (by decide) (by decide) (by decide)⟩

/-- Claim C3: the 3×3 doctest scenario (unit spacing, so orthogonal
links have length 1 and diagonal links length `√2`; three sides
closed, the remaining side — nodes 0, 1, 2 — open, elevation `x + y`).
Routing produces `receiver = [0,1,2,3,0,5,6,7,8]`,
`steepest_slope = [0,0,0,0,√2,0,0,0,0]`,
`link_to_receiver = [-1,-1,-1,-1,12,-1,-1,-1,-1]` and
`sink_flag = [1,1,1,1,0,1,1,1,1]`; link 12 is the diagonal link
connecting nodes 0 and 4. -/
theorem direct_flow_3x3_doctest :
    (direct_flow (D8Grid.mk GridKind.Raster 3 3 status3 elev3R (fun i => if link_count 3 3 ≤ i then Real.sqrt 2 else 1) 1)
      ⟨1, d8_active_links 3 3 status3⟩).2 =
      D8Output.mk [0, 1, 2, 3, 0, 5, 6, 7, 8]
        [0, 0, 0, 0, Real.sqrt 2, 0, 0, 0, 0]
        [-1, -1, -1, -1, 12, -1, -1, -1, -1]
        [true, true, true, true, false, true, true, true, true] ∧
    (12, 0, 4) ∈ allD8Links 3 3 ∧ link_count 3 3 ≤ 12 := by
  have hs2 : (1:ℝ) < Real.sqrt 2 := (Real.lt_sqrt (by norm_num)).mpr (by norm_num)
  have hA : linkStep elev3R
      ⟨List.range 9, List.replicate 9 0, List.replicate 9 (-1)⟩
      (LinkData.mk 1 1 4 (-1)) =
      ⟨[0, 1, 2, 3, 1, 5, 6, 7, 8], [0, 0, 0, 0, 1, 0, 0, 0, 0],
        [-1, -1, -1, -1, 1, -1, -1, -1, -1]⟩ := by
    rw [linkStep]
    split_ifs with h1 h2
    · exact absurd h1 (by show ¬((1:ℝ) > 2 ∧ (-1:ℝ) > 0); norm_num)
    · show RouteState.mk [0, 1, 2, 3, 1, 5, 6, 7, 8]
        [0, 0, 0, 0, -(-1:ℝ), 0, 0, 0, 0]
        [-1, -1, -1, -1, 1, -1, -1, -1, -1] = _
      norm_num
    · exact absurd (show (2:ℝ) > 1 ∧ -(-1:ℝ) > 0 from ⟨by norm_num, by norm_num⟩) h2
  have hB : linkStep elev3R
      ⟨[0, 1, 2, 3, 1, 5, 6, 7, 8], [0, 0, 0, 0, 1, 0, 0, 0, 0],
        [-1, -1, -1, -1, 1, -1, -1, -1, -1]⟩
      (LinkData.mk 12 0 4 (-Real.sqrt 2)) =
      ⟨[0, 1, 2, 3, 0, 5, 6, 7, 8], [0, 0, 0, 0, Real.sqrt 2, 0, 0, 0, 0],
        [-1, -1, -1, -1, 12, -1, -1, -1, -1]⟩ := by
    rw [linkStep]
    split_ifs with h1 h2
    · exact absurd h1 (by show ¬((0:ℝ) > 2 ∧ -Real.sqrt 2 > 0); norm_num)
    · show RouteState.mk [0, 1, 2, 3, 0, 5, 6, 7, 8]
        [0, 0, 0, 0, -(-Real.sqrt 2), 0, 0, 0, 0]
        [-1, -1, -1, -1, 12, -1, -1, -1, -1] = _
      norm_num
    · exact absurd (show (2:ℝ) > 0 ∧ -(-Real.sqrt 2) > 1 from
        ⟨by norm_num, by rw [neg_neg]; exact hs2⟩) h2
  have hC : linkStep elev3R
      ⟨[0, 1, 2, 3, 0, 5, 6, 7, 8], [0, 0, 0, 0, Real.sqrt 2, 0, 0, 0, 0],
        [-1, -1, -1, -1, 12, -1, -1, -1, -1]⟩
      (LinkData.mk 15 2 4 0) =
      ⟨[0, 1, 2, 3, 0, 5, 6, 7, 8], [0, 0, 0, 0, Real.sqrt 2, 0, 0, 0, 0],
        [-1, -1, -1, -1, 12, -1, -1, -1, -1]⟩ := by
    rw [linkStep]
    split_ifs with h1 h2
    · exact absurd h1 (by show ¬((2:ℝ) > 2 ∧ (0:ℝ) > 0); norm_num)
    · exact absurd h2 (by show ¬((2:ℝ) > 2 ∧ -(0:ℝ) > Real.sqrt 2); norm_num)
    · rfl
  have hfold : ([LinkData.mk 1 1 4 (-1), LinkData.mk 12 0 4 (-Real.sqrt 2),
      LinkData.mk 15 2 4 0] : List (LinkData ℝ)).foldl (linkStep elev3R)
      ⟨List.range 9, List.replicate 9 0, List.replicate 9 (-1)⟩ =
      ⟨[0, 1, 2, 3, 0, 5, 6, 7, 8], [0, 0, 0, 0, Real.sqrt 2, 0, 0, 0, 0],
        [-1, -1, -1, -1, 12, -1, -1, -1, -1]⟩ := by
    rw [List.foldl_cons, hA, List.foldl_cons, hB, List.foldl_cons, hC,
      List.foldl_nil]
  have hF1 : (flow_directions elev3R 9
      [LinkData.mk 1 1 4 (-1), LinkData.mk 12 0 4 (-Real.sqrt 2),
        LinkData.mk 15 2 4 0] [0, 1, 2]).1 =
      ⟨[0, 1, 2, 3, 0, 5, 6, 7, 8], [0, 0, 0, 0, Real.sqrt 2, 0, 0, 0, 0],
        [-1, -1, -1, -1, 12, -1, -1, -1, -1]⟩ := by
    show ([0, 1, 2].foldl (fun st b => RouteState.mk (st.receiver.set b b)
        (st.steepest_slope.set b 0) (st.receiver_link.set b (-1)))
      (([LinkData.mk 1 1 4 (-1), LinkData.mk 12 0 4 (-Real.sqrt 2),
        LinkData.mk 15 2 4 0] : List (LinkData ℝ)).foldl (linkStep elev3R)
        ⟨List.range 9, List.replicate 9 0, List.replicate 9 (-1)⟩)) = _
    rw [hfold]
    rfl
  have hF2 : (flow_directions elev3R 9
      [LinkData.mk 1 1 4 (-1), LinkData.mk 12 0 4 (-Real.sqrt 2),
        LinkData.mk 15 2 4 0] [0, 1, 2]).2 = [0, 1, 2, 3, 5, 6, 7, 8] := by
    show (List.range 9).filter (fun i =>
      ([0, 1, 2].foldl (fun st b => RouteState.mk (st.receiver.set b b)
        (st.steepest_slope.set b 0) (st.receiver_link.set b (-1)))
      (([LinkData.mk 1 1 4 (-1), LinkData.mk 12 0 4 (-Real.sqrt 2),
        LinkData.mk 15 2 4 0] : List (LinkData ℝ)).foldl (linkStep elev3R)
        ⟨List.range 9, List.replicate 9 0, List.replicate 9 (-1)⟩)).receiver.getD i i == i) = _
    rw [hfold]
    show (List.range 9).filter (fun i =>
      ([0, 1, 2, 3, 0, 5, 6, 7, 8] : List ℕ).getD i i == i) = _
    decide
  obtain ⟨hS, hR, hL, hK⟩ := direct_flow_fields (D8Grid.mk GridKind.Raster 3 3 status3 elev3R (fun i => if link_count 3 3 ≤ i then Real.sqrt 2 else 1) 1)
    ⟨1, d8_active_links 3 3 status3⟩ rfl
  have hk1 : lkOf (D8Grid.mk GridKind.Raster 3 3 status3 elev3R (fun i => if link_count 3 3 ≤ i then Real.sqrt 2 else 1) 1) (1, 1, 4) = LinkData.mk 1 1 4 (-1) := by
    show LinkData.mk 1 1 4 (-(((2:ℝ) - 1) / 1)) = _
    norm_num
  have hk12 : lkOf (D8Grid.mk GridKind.Raster 3 3 status3 elev3R (fun i => if link_count 3 3 ≤ i then Real.sqrt 2 else 1) 1) (12, 0, 4) = LinkData.mk 12 0 4 (-Real.sqrt 2) := by
    show LinkData.mk 12 0 4 (-(((2:ℝ) - 0) / Real.sqrt 2)) = _
    have h2 : ((2:ℝ) - 0) / Real.sqrt 2 = Real.sqrt 2 := by
      rw [sub_zero]; exact Real.div_sqrt
    rw [h2]
  have hk15 : lkOf (D8Grid.mk GridKind.Raster 3 3 status3 elev3R (fun i => if link_count 3 3 ≤ i then Real.sqrt 2 else 1) 1) (15, 2, 4) = LinkData.mk 15 2 4 0 := by
    show LinkData.mk 15 2 4 (-(((2:ℝ) - 2) / Real.sqrt 2)) = _
    norm_num
  have hact : d8_active_links (D8Grid.mk GridKind.Raster 3 3 status3 elev3R (fun i => if link_count 3 3 ≤ i then Real.sqrt 2 else 1) 1).rows (D8Grid.mk GridKind.Raster 3 3 status3 elev3R (fun i => if link_count 3 3 ≤ i then Real.sqrt 2 else 1) 1).cols (D8Grid.mk GridKind.Raster 3 3 status3 elev3R (fun i => if link_count 3 3 ≤ i then Real.sqrt 2 else 1) 1).status_at_node =
      [(1, 1, 4), (12, 0, 4), (15, 2, 4)] := by decide
  have hLD : (d8_active_links (D8Grid.mk GridKind.Raster 3 3 status3 elev3R (fun i => if link_count 3 3 ≤ i then Real.sqrt 2 else 1) 1).rows (D8Grid.mk GridKind.Raster 3 3 status3 elev3R (fun i => if link_count 3 3 ≤ i then Real.sqrt 2 else 1) 1).cols (D8Grid.mk GridKind.Raster 3 3 status3 elev3R (fun i => if link_count 3 3 ≤ i then Real.sqrt 2 else 1) 1).status_at_node).map (lkOf (D8Grid.mk GridKind.Raster 3 3 status3 elev3R (fun i => if link_count 3 3 ≤ i then Real.sqrt 2 else 1) 1)) =
      [LinkData.mk 1 1 4 (-1), LinkData.mk 12 0 4 (-Real.sqrt 2),
        LinkData.mk 15 2 4 0] := by
    rw [hact]
    show [lkOf (D8Grid.mk GridKind.Raster 3 3 status3 elev3R (fun i => if link_count 3 3 ≤ i then Real.sqrt 2 else 1) 1) (1, 1, 4), lkOf (D8Grid.mk GridKind.Raster 3 3 status3 elev3R (fun i => if link_count 3 3 ≤ i then Real.sqrt 2 else 1) 1) (12, 0, 4), lkOf (D8Grid.mk GridKind.Raster 3 3 status3 elev3R (fun i => if link_count 3 3 ≤ i then Real.sqrt 2 else 1) 1) (15, 2, 4)] = _
    rw [hk1, hk12, hk15]
  have hBL : ((List.range ((D8Grid.mk GridKind.Raster 3 3 status3 elev3R (fun i => if link_count 3 3 ≤ i then Real.sqrt 2 else 1) 1).rows * (D8Grid.mk GridKind.Raster 3 3 status3 elev3R (fun i => if link_count 3 3 ≤ i then Real.sqrt 2 else 1) 1).cols)).filter fun k =>
      (D8Grid.mk GridKind.Raster 3 3 status3 elev3R (fun i => if link_count 3 3 ≤ i then Real.sqrt 2 else 1) 1).status_at_node k == FIXED_VALUE_BOUNDARY ||
      (D8Grid.mk GridKind.Raster 3 3 status3 elev3R (fun i => if link_count 3 3 ≤ i then Real.sqrt 2 else 1) 1).status_at_node k == FIXED_GRADIENT_BOUNDARY) = [0, 1, 2] := by decide
  have hargs : flow_directions (D8Grid.mk GridKind.Raster 3 3 status3 elev3R (fun i => if link_count 3 3 ≤ i then Real.sqrt 2 else 1) 1).elev ((D8Grid.mk GridKind.Raster 3 3 status3 elev3R (fun i => if link_count 3 3 ≤ i then Real.sqrt 2 else 1) 1).rows * (D8Grid.mk GridKind.Raster 3 3 status3 elev3R (fun i => if link_count 3 3 ≤ i then Real.sqrt 2 else 1) 1).cols)
      ((d8_active_links (D8Grid.mk GridKind.Raster 3 3 status3 elev3R (fun i => if link_count 3 3 ≤ i then Real.sqrt 2 else 1) 1).rows (D8Grid.mk GridKind.Raster 3 3 status3 elev3R (fun i => if link_count 3 3 ≤ i then Real.sqrt 2 else 1) 1).cols (D8Grid.mk GridKind.Raster 3 3 status3 elev3R (fun i => if link_count 3 3 ≤ i then Real.sqrt 2 else 1) 1).status_at_node).map (lkOf (D8Grid.mk GridKind.Raster 3 3 status3 elev3R (fun i => if link_count 3 3 ≤ i then Real.sqrt 2 else 1) 1)))
      ((List.range ((D8Grid.mk GridKind.Raster 3 3 status3 elev3R (fun i => if link_count 3 3 ≤ i then Real.sqrt 2 else 1) 1).rows * (D8Grid.mk GridKind.Raster 3 3 status3 elev3R (fun i => if link_count 3 3 ≤ i then Real.sqrt 2 else 1) 1).cols)).filter fun k =>
        (D8Grid.mk GridKind.Raster 3 3 status3 elev3R (fun i => if link_count 3 3 ≤ i then Real.sqrt 2 else 1) 1).status_at_node k == FIXED_VALUE_BOUNDARY ||
        (D8Grid.mk GridKind.Raster 3 3 status3 elev3R (fun i => if link_count 3 3 ≤ i then Real.sqrt 2 else 1) 1).status_at_node k == FIXED_GRADIENT_BOUNDARY) =
      flow_directions elev3R 9
        [LinkData.mk 1 1 4 (-1), LinkData.mk 12 0 4 (-Real.sqrt 2),
          LinkData.mk 15 2 4 0] [0, 1, 2] := by
    rw [hLD, hBL]
    rfl
  refine ⟨?_, by decide, by decide⟩
  have e1 : (direct_flow (D8Grid.mk GridKind.Raster 3 3 status3 elev3R (fun i => if link_count 3 3 ≤ i then Real.sqrt 2 else 1) 1)
      ⟨1, d8_active_links 3 3 status3⟩).2.receiver = [0, 1, 2, 3, 0, 5, 6, 7, 8] := by
    rw [hR, hargs, hF1]
  have e2 : (direct_flow (D8Grid.mk GridKind.Raster 3 3 status3 elev3R (fun i => if link_count 3 3 ≤ i then Real.sqrt 2 else 1) 1)
      ⟨1, d8_active_links 3 3 status3⟩).2.steepest_slope =
      [0, 0, 0, 0, Real.sqrt 2, 0, 0, 0, 0] := by
    rw [hS, hargs, hF1]
  have e3 : (direct_flow (D8Grid.mk GridKind.Raster 3 3 status3 elev3R (fun i => if link_count 3 3 ≤ i then Real.sqrt 2 else 1) 1)
      ⟨1, d8_active_links 3 3 status3⟩).2.receiver_link =
      [-1, -1, -1, -1, 12, -1, -1, -1, -1] := by
    rw [hL, hargs, hF1]
  have e4 : (direct_flow (D8Grid.mk GridKind.Raster 3 3 status3 elev3R (fun i => if link_count 3 3 ≤ i then Real.sqrt 2 else 1) 1)
      ⟨1, d8_active_links 3 3 status3⟩).2.sink_flag =
      [true, true, true, true, false, true, true, true, true] := by
    rw [hK, hargs, hF2]
    decide
  show D8Output.mk
      (direct_flow (D8Grid.mk GridKind.Raster 3 3 status3 elev3R (fun i => if link_count 3 3 ≤ i then Real.sqrt 2 else 1) 1) ⟨1, d8_active_links 3 3 status3⟩).2.receiver
      (direct_flow (D8Grid.mk GridKind.Raster 3 3 status3 elev3R (fun i => if link_count 3 3 ≤ i then Real.sqrt 2 else 1) 1) ⟨1, d8_active_links 3 3 status3⟩).2.steepest_slope
      (direct_flow (D8Grid.mk GridKind.Raster 3 3 status3 elev3R (fun i => if link_count 3 3 ≤ i then Real.sqrt 2 else 1) 1) ⟨1, d8_active_links 3 3 status3⟩).2.receiver_link
      (direct_flow (D8Grid.mk GridKind.Raster 3 3 status3 elev3R (fun i => if link_count 3 3 ≤ i then Real.sqrt 2 else 1) 1) ⟨1, d8_active_links 3 3 status3⟩).2.sink_flag = _
  rw [e1, e2, e3, e4]
